import Mathlib

/-!
Verification development for the wasm-composer repository.

The definitions below are a shallow embedding of the encoder sources:

* src/src/utilities/Leb128Encoder.ts — LEB128 integer codecs;
* src/src/Ops.ts                     — the instruction DSL (`Op`);
* src/src/WasmComposer.ts            — the module encoder (`WasmBuilder`).

JavaScript-specific conventions used throughout the embedding:

* a JavaScript number or bigint holding an integer is modelled as `Int`
  (wrapped in `JsInt` where the number/bigint distinction matters);
* for nonnegative values, `x & 127` is `x % 128`, `x >>> 7` is `x / 128`
  and `x | 128` on a 7-bit value is `x + 128`;
* for signed 32-bit / bigint values, `x & 127` is `Int.emod x 128` and the
  arithmetic shift `x >> 7` is `Int.ediv x 128` (floor and euclidean
  division agree because the divisor is positive);
* a `throw new Error(...)` is an `Except.error` carrying the structured
  error kind the message denotes (spec section 7);
* the builder object only ever appends bytes, so every emitter is modelled
  as the pure list of bytes it appends.
-/

namespace WasmComposer

/-- Input of the LEB128 encoders: a JavaScript value of type number or
bigint.  Only integral values reach the encoders, so both carry an `Int`. -/
inductive JsInt where
  | num (v : Int)
  | big (v : Int)
deriving DecidableEq

/-- Integer carried by a `JsInt`. -/
def JsInt.toInt : JsInt → Int
  | .num v => v
  | .big v => v

/-- Error kinds surfaced by the encoder (spec section 7).  Every throw site
in the source raises a plain Error; the constructor records the kind that
the thrown message denotes, together with its payload. -/
inductive EmitError where
  | unresolvedName (mnemonic : String) (name : String)
  | invalidValue (value : Int)
  | malformedInput (description : String)
deriving DecidableEq

/-! ## LEB128 codec (src/src/utilities/Leb128Encoder.ts) -/

/-- Fast path of `encodeUnsignedLeb128` for number inputs below `2^31`
(`encodeUnsignedInt31` in Leb128Encoder.ts). -/
def encodeUnsignedInt31 (value : Nat) : List Nat :=
  if value < 2 ^ 7 then
    [value]
  else if value < 2 ^ 14 then
    [(value &&& 127) ||| 128,
     value >>> 7]
  else if value < 2 ^ 21 then
    [(value &&& 127) ||| 128,
     ((value >>> 7) &&& 127) ||| 128,
     value >>> 14]
  else if value < 2 ^ 28 then
    [(value &&& 127) ||| 128,
     ((value >>> 7) &&& 127) ||| 128,
     ((value >>> 14) &&& 127) ||| 128,
     value >>> 21]
  else
    [(value &&& 127) ||| 128,
     ((value >>> 7) &&& 127) ||| 128,
     ((value >>> 14) &&& 127) ||| 128,
     ((value >>> 21) &&& 127) ||| 128,
     value >>> 28]

/-- Body of the while(true) loop of `encodeUnsignedBigInt`.  The first
argument is an explicit iteration bound making the definition structurally
recursive; `value + 1` iterations always suffice
(`encodeUnsignedBigIntLoop_irrel` shows the bound is irrelevant). -/
def encodeUnsignedBigIntLoop : Nat → Nat → List Nat
  | 0, _ => []
  | fuel + 1, value =>
    let lowest7Bits := value &&& 127
    if value >>> 7 = 0 then
      [lowest7Bits]
    else
      (lowest7Bits ||| 128) :: encodeUnsignedBigIntLoop fuel (value >>> 7)

/-- Arbitrary-precision path (`encodeUnsignedBigInt` in Leb128Encoder.ts). -/
def encodeUnsignedBigInt (value : Nat) : List Nat :=
  encodeUnsignedBigIntLoop (value + 1) value

/-- Entry point `encodeUnsignedLeb128`: negative input is an InvalidValue
error; a number below `2^31` takes the fast path, any other input the
arbitrary-precision path. -/
def encodeUnsignedLeb128 : JsInt → Except EmitError (List Nat)
  | .num v =>
    if v < 0 then .error (.invalidValue v)
    else if v < 2 ^ 31 then .ok (encodeUnsignedInt31 v.toNat)
    else .ok (encodeUnsignedBigInt v.toNat)
  | .big v =>
    if v < 0 then .error (.invalidValue v)
    else .ok (encodeUnsignedBigInt v.toNat)

/-- Bytes produced by `builder.emitUint` at a call site whose argument is a
nonnegative number in the source (an index or a length). -/
def encodeUintNat (value : Nat) : List Nat :=
  if value < 2 ^ 31 then encodeUnsignedInt31 value else encodeUnsignedBigInt value

/-- Fast path of `encodeSignedLeb128` for numbers in int32 range
(`encodeSignedInt32` in Leb128Encoder.ts).  Each emitted group is
`(value >> 7k) & 0x7f`, written `(value.ediv 128^k).emod 128`, and the
continuation bit `| 0x80` is `+ 128`. -/
def encodeSignedInt32 (value : Int) : List Nat :=
  let absValue := value.natAbs
  if absValue < 2 ^ 6 then
    [(value.emod 128).toNat]
  else if absValue < 2 ^ 13 then
    [(value.emod 128).toNat + 128,
     ((value.ediv 128).emod 128).toNat]
  else if absValue < 2 ^ 20 then
    [(value.emod 128).toNat + 128,
     ((value.ediv 128).emod 128).toNat + 128,
     ((value.ediv 16384).emod 128).toNat]
  else if absValue < 2 ^ 27 then
    [(value.emod 128).toNat + 128,
     ((value.ediv 128).emod 128).toNat + 128,
     ((value.ediv 16384).emod 128).toNat + 128,
     ((value.ediv 2097152).emod 128).toNat]
  else
    [(value.emod 128).toNat + 128,
     ((value.ediv 128).emod 128).toNat + 128,
     ((value.ediv 16384).emod 128).toNat + 128,
     ((value.ediv 2097152).emod 128).toNat + 128,
     ((value.ediv 268435456).emod 128).toNat]

/-- Body of the while(true) loop of `encodeSignedBigInt`, with an explicit
iteration bound (the loop shrinks `value.natAbs` on every iteration). -/
def encodeSignedBigIntLoop : Nat → Int → List Nat
  | 0, _ => []
  | fuel + 1, value =>
    let lowest7Bits := (value.emod 128).toNat
    let signBit := lowest7Bits &&& 64
    let shifted := value.ediv 128
    if (shifted = 0 ∧ signBit = 0) ∨ (shifted = -1 ∧ signBit ≠ 0) then
      [lowest7Bits]
    else
      (lowest7Bits ||| 128) :: encodeSignedBigIntLoop fuel shifted

/-- Arbitrary-precision path (`encodeSignedBigInt` in Leb128Encoder.ts). -/
def encodeSignedBigInt (value : Int) : List Nat :=
  encodeSignedBigIntLoop (value.natAbs + 2) value

/-- Entry point `encodeSignedLeb128`: numbers inside int32 range take the
fast path, any other input the arbitrary-precision path. -/
def encodeSignedLeb128 : JsInt → List Nat
  | .num v =>
    if -2147483648 ≤ v ∧ v ≤ 2147483647 then encodeSignedInt32 v
    else encodeSignedBigInt v
  | .big v => encodeSignedBigInt v

/-! ## LEB128 reference decoders (the LEB128 rules named by the spec) -/

/-- Value denoted by a byte sequence under the unsigned LEB128 rules
(little-endian base-128 groups; continuation bits are masked off). -/
def decodeUleb : List Nat → Nat
  | [] => 0
  | b :: rest => (b % 128) + 128 * decodeUleb rest

/-- Well-formedness of a LEB128 group sequence: nonempty, every group except
the last has the continuation bit (bit 7) set, the last one does not. -/
def ulebWellFormed : List Nat → Bool
  | [] => false
  | [b] => b < 128
  | b :: rest => 128 ≤ b && b < 256 && ulebWellFormed rest

/-- Value denoted by a byte sequence under the signed LEB128 rules: the
final 7-bit group is interpreted in two's complement (bit 6 is the sign). -/
def decodeSleb : List Nat → Int
  | [] => 0
  | [b] => if b % 128 < 64 then ((b % 128 : Nat) : Int) else ((b % 128 : Nat) : Int) - 128
  | b :: rest => ((b % 128 : Nat) : Int) + 128 * decodeSleb rest

/-- Signed LEB128 sequences have the same continuation-bit shape as
unsigned ones. -/
def slebWellFormed (bs : List Nat) : Bool :=
  ulebWellFormed bs

/-! ## Arithmetic readings of the bit operations -/

theorem and127_eq_mod (n : Nat) : n &&& 127 = n % 128 := by
  have h := Nat.and_pow_two_sub_one_eq_mod n 7
  norm_num at h
  exact h

theorem shr7_eq_div (n : Nat) : n >>> 7 = n / 128 := by
  rw [Nat.shiftRight_eq_div_pow]

theorem or128_of_lt {a : Nat} (h : a < 128) : a ||| 128 = a + 128 := by
  have hall : ∀ x : Nat, x < 128 → x ||| 128 = x + 128 := by decide
  exact hall a h

theorem mod128_or128 (n : Nat) : n % 128 ||| 128 = n % 128 + 128 :=
  or128_of_lt (Nat.mod_lt n (by norm_num))

/-! ## Unsigned LEB128 correctness (claim C3) -/

theorem encodeUnsignedBigIntLoop_irrel (f₁ : Nat) :
    ∀ f₂ v : Nat, v < f₁ → v < f₂ →
      encodeUnsignedBigIntLoop f₁ v = encodeUnsignedBigIntLoop f₂ v := by
  induction f₁ with
  | zero => intro f₂ v h₁ _; omega
  | succ f₁ ih =>
    intro f₂ v h₁ h₂
    cases f₂ with
    | zero => omega
    | succ f₂ =>
      simp only [encodeUnsignedBigIntLoop]
      by_cases h0 : v >>> 7 = 0
      · simp [h0]
      · rw [if_neg h0, if_neg h0]
        have hd : v >>> 7 < v := by
          rw [shr7_eq_div] at h0 ⊢
          omega
        rw [ih f₂ (v >>> 7) (by omega) (by omega)]

/-- Recurrence satisfied by `encodeUnsignedBigInt`, mirroring one pass of
the source loop. -/
theorem encodeUnsignedBigInt_eq (v : Nat) :
    encodeUnsignedBigInt v =
      if v >>> 7 = 0 then [v &&& 127]
      else (v &&& 127 ||| 128) :: encodeUnsignedBigInt (v >>> 7) := by
  show encodeUnsignedBigIntLoop (v + 1) v = _
  simp only [encodeUnsignedBigIntLoop]
  by_cases h0 : v >>> 7 = 0
  · simp [h0]
  · rw [if_neg h0, if_neg h0]
    have hd : v >>> 7 < v := by
      rw [shr7_eq_div] at h0 ⊢
      omega
    rw [encodeUnsignedBigIntLoop_irrel v (v >>> 7 + 1) (v >>> 7) (by omega) (by omega)]
    rfl

theorem decodeUleb_encodeUnsignedBigInt (v : Nat) :
    decodeUleb (encodeUnsignedBigInt v) = v := by
  induction v using Nat.strong_induction_on with
  | _ v ih =>
    rw [encodeUnsignedBigInt_eq]
    by_cases h0 : v >>> 7 = 0
    · rw [if_pos h0]
      rw [shr7_eq_div] at h0
      simp only [decodeUleb, and127_eq_mod]
      omega
    · rw [if_neg h0]
      have hd : v >>> 7 < v := by
        rw [shr7_eq_div] at h0 ⊢
        omega
      simp only [decodeUleb, ih (v >>> 7) hd]
      rw [and127_eq_mod, or128_of_lt (by omega), shr7_eq_div]
      omega

theorem encodeUnsignedBigInt_ne_nil (v : Nat) : encodeUnsignedBigInt v ≠ [] := by
  rw [encodeUnsignedBigInt_eq]
  by_cases h0 : v >>> 7 = 0 <;> simp [h0]

theorem ulebWellFormed_encodeUnsignedBigInt (v : Nat) :
    ulebWellFormed (encodeUnsignedBigInt v) = true := by
  induction v using Nat.strong_induction_on with
  | _ v ih =>
    rw [encodeUnsignedBigInt_eq]
    by_cases h0 : v >>> 7 = 0
    · rw [if_pos h0]
      simp only [ulebWellFormed, decide_eq_true_eq]
      rw [and127_eq_mod]
      omega
    · rw [if_neg h0]
      have hd : v >>> 7 < v := by
        rw [shr7_eq_div] at h0 ⊢
        omega
      have hwf := ih (v >>> 7) hd
      cases hr : encodeUnsignedBigInt (v >>> 7) with
      | nil => exact absurd hr (encodeUnsignedBigInt_ne_nil _)
      | cons c cs =>
        rw [hr] at hwf
        have hb : v &&& 127 ||| 128 = v % 128 + 128 := by
          rw [and127_eq_mod, or128_of_lt (by omega)]
        simp only [ulebWellFormed, hb, Bool.and_eq_true, decide_eq_true_eq]
        exact ⟨⟨by omega, by omega⟩, hwf⟩

theorem decodeUleb_lt (bs : List Nat) (h : ulebWellFormed bs = true) :
    decodeUleb bs < 128 ^ bs.length := by
  induction bs with
  | nil => simp [ulebWellFormed] at h
  | cons b rest ih =>
    cases rest with
    | nil =>
      simp only [decodeUleb, List.length_cons, List.length_nil]
      have : b % 128 < 128 := Nat.mod_lt _ (by norm_num)
      simpa using by omega
    | cons c cs =>
      simp only [ulebWellFormed, Bool.and_eq_true, decide_eq_true_eq] at h
      have hrest := ih h.2
      simp only [decodeUleb] at hrest ⊢
      have hb : b % 128 < 128 := Nat.mod_lt _ (by norm_num)
      have hpow : (128 : Nat) ^ (c :: cs).length ≥ 1 := Nat.one_le_pow _ _ (by norm_num)
      calc b % 128 + 128 * ((c % 128) + 128 * decodeUleb cs)
          < 128 * (((c % 128) + 128 * decodeUleb cs) + 1) := by omega
        _ ≤ 128 * 128 ^ (c :: cs).length := by
            have := hrest
            exact Nat.mul_le_mul_left 128 (by omega)
        _ = 128 ^ (b :: c :: cs).length := by
            simp [List.length_cons, pow_succ, Nat.mul_comm]

theorem encodeUnsignedBigInt_length_le (v L : Nat) (hL : 1 ≤ L) (h : v < 128 ^ L) :
    (encodeUnsignedBigInt v).length ≤ L := by
  induction v using Nat.strong_induction_on generalizing L with
  | _ v ih =>
    rw [encodeUnsignedBigInt_eq]
    by_cases h0 : v >>> 7 = 0
    · rw [if_pos h0]
      simpa using hL
    · rw [if_neg h0]
      have hd : v >>> 7 < v := by
        rw [shr7_eq_div] at h0 ⊢
        omega
      have hv128 : 128 ≤ v := by
        rw [shr7_eq_div] at h0
        omega
      cases L with
      | zero => omega
      | succ L =>
        have hL1 : 1 ≤ L := by
          by_contra hc
          have hL0 : L = 0 := by omega
          rw [hL0] at h
          norm_num at h
          omega
        have hsub : v >>> 7 < 128 ^ L := by
          rw [shr7_eq_div]
          rw [Nat.div_lt_iff_lt_mul (by norm_num)]
          calc v < 128 ^ (L + 1) := h
            _ = 128 ^ L * 128 := by rw [pow_succ]
        have := ih (v >>> 7) hd L hL1 hsub
        simp only [List.length_cons]
        omega

/-- Minimality of the arbitrary-precision unsigned encoding. -/
theorem encodeUnsignedBigInt_minimal (n : Nat) (bs : List Nat)
    (hwf : ulebWellFormed bs = true) (hdec : decodeUleb bs = n) :
    (encodeUnsignedBigInt n).length ≤ bs.length := by
  have h1 : 1 ≤ bs.length := by
    cases bs with
    | nil => simp [ulebWellFormed] at hwf
    | cons b rest => simp
  exact encodeUnsignedBigInt_length_le n bs.length h1 (hdec ▸ decodeUleb_lt bs hwf)

/-- The 31-bit fast path agrees with the arbitrary-precision path. -/
theorem encodeUnsignedInt31_eq_bigInt (n : Nat) (h : n < 2 ^ 31) :
    encodeUnsignedInt31 n = encodeUnsignedBigInt n := by
  by_cases h7 : n < 2 ^ 7
  · rw [encodeUnsignedBigInt_eq]
    have h0 : n >>> 7 = 0 := by rw [shr7_eq_div]; omega
    rw [if_pos h0]
    simp only [encodeUnsignedInt31, if_pos h7, and127_eq_mod, List.cons.injEq, and_true]
    omega
  · by_cases h14 : n < 2 ^ 14
    · rw [encodeUnsignedBigInt_eq]
      have h0 : ¬ n >>> 7 = 0 := by rw [shr7_eq_div]; omega
      rw [if_neg h0, encodeUnsignedBigInt_eq]
      have h1 : (n >>> 7) >>> 7 = 0 := by
        simp only [shr7_eq_div]
        omega
      rw [if_pos h1]
      simp only [encodeUnsignedInt31, if_neg (by omega : ¬ n < 2 ^ 7), if_pos h14,
        and127_eq_mod, shr7_eq_div, mod128_or128, List.cons.injEq, and_true]
      and_intros <;> first | trivial | omega
    · by_cases h21 : n < 2 ^ 21
      · rw [encodeUnsignedBigInt_eq]
        have h0 : ¬ n >>> 7 = 0 := by rw [shr7_eq_div]; omega
        rw [if_neg h0, encodeUnsignedBigInt_eq]
        have h1 : ¬ (n >>> 7) >>> 7 = 0 := by
          simp only [shr7_eq_div]
          omega
        rw [if_neg h1, encodeUnsignedBigInt_eq]
        have h2 : ((n >>> 7) >>> 7) >>> 7 = 0 := by
          simp only [shr7_eq_div]
          omega
        rw [if_pos h2]
        simp only [encodeUnsignedInt31, if_neg (by omega : ¬ n < 2 ^ 7),
          if_neg (by omega : ¬ n < 2 ^ 14), if_pos h21,
          and127_eq_mod, shr7_eq_div, mod128_or128, List.cons.injEq, and_true]
        and_intros <;> first | trivial | omega
      · by_cases h28 : n < 2 ^ 28
        · rw [encodeUnsignedBigInt_eq]
          have h0 : ¬ n >>> 7 = 0 := by rw [shr7_eq_div]; omega
          rw [if_neg h0, encodeUnsignedBigInt_eq]
          have h1 : ¬ (n >>> 7) >>> 7 = 0 := by
            simp only [shr7_eq_div]
            omega
          rw [if_neg h1, encodeUnsignedBigInt_eq]
          have h2 : ¬ ((n >>> 7) >>> 7) >>> 7 = 0 := by
            simp only [shr7_eq_div]
            omega
          rw [if_neg h2, encodeUnsignedBigInt_eq]
          have h3 : (((n >>> 7) >>> 7) >>> 7) >>> 7 = 0 := by
            simp only [shr7_eq_div]
            omega
          rw [if_pos h3]
          simp only [encodeUnsignedInt31, if_neg (by omega : ¬ n < 2 ^ 7),
            if_neg (by omega : ¬ n < 2 ^ 14), if_neg (by omega : ¬ n < 2 ^ 21), if_pos h28,
            and127_eq_mod, shr7_eq_div, mod128_or128, List.cons.injEq, and_true]
          and_intros <;> first | trivial | omega
        · rw [encodeUnsignedBigInt_eq]
          have h0 : ¬ n >>> 7 = 0 := by rw [shr7_eq_div]; omega
          rw [if_neg h0, encodeUnsignedBigInt_eq]
          have h1 : ¬ (n >>> 7) >>> 7 = 0 := by
            simp only [shr7_eq_div]
            omega
          rw [if_neg h1, encodeUnsignedBigInt_eq]
          have h2 : ¬ ((n >>> 7) >>> 7) >>> 7 = 0 := by
            simp only [shr7_eq_div]
            omega
          rw [if_neg h2, encodeUnsignedBigInt_eq]
          have h3 : ¬ (((n >>> 7) >>> 7) >>> 7) >>> 7 = 0 := by
            simp only [shr7_eq_div]
            omega
          rw [if_neg h3, encodeUnsignedBigInt_eq]
          have h4 : ((((n >>> 7) >>> 7) >>> 7) >>> 7) >>> 7 = 0 := by
            simp only [shr7_eq_div]
            omega
          rw [if_pos h4]
          simp only [encodeUnsignedInt31, if_neg (by omega : ¬ n < 2 ^ 7),
            if_neg (by omega : ¬ n < 2 ^ 14), if_neg (by omega : ¬ n < 2 ^ 21),
            if_neg (by omega : ¬ n < 2 ^ 28),
            and127_eq_mod, shr7_eq_div, mod128_or128, List.cons.injEq, and_true]
          and_intros <;> first | trivial | omega

/-! ## Data model (type declarations of WasmComposer.ts) -/

/-- Reference types: the six shapes of the source union `ReferenceType`. -/
inductive ReferenceType where
  | shortTypeId (typeId : Nat)
  | shortTypeIndex (typeIndex : Int)
  | longNullableTypeId (typeId : Nat)
  | longNullableTypeIndex (typeIndex : Int)
  | longNonNullableTypeId (typeId : Nat)
  | longNonNullableTypeIndex (typeIndex : Int)
deriving DecidableEq

/-- StorageType: a plain type-id byte (NumberTypeId, VectorTypeId or
PackedTypeId, which are numbers in the source) or a reference type. -/
inductive StorageType where
  | num (typeId : Nat)
  | ref (refType : ReferenceType)
deriving DecidableEq

/-- ValueType is StorageType without the packed ids; the distinction is a
TypeScript union refinement with no runtime content, so one type is used. -/
abbrev ValueType := StorageType

/-- NumberTypeId.i32 = 0x7f. -/
def NumberTypeId.i32 : ValueType := .num 0x7f

/-- NumberTypeId.i64 = 0x7e. -/
def NumberTypeId.i64 : ValueType := .num 0x7e

/-- NumberTypeId.f32 = 0x7d. -/
def NumberTypeId.f32 : ValueType := .num 0x7d

/-- NumberTypeId.f64 = 0x7c. -/
def NumberTypeId.f64 : ValueType := .num 0x7c

/-- The empty block type byte (`emptyType` in the source). -/
def emptyType : Nat := 0x40

/-- Two's complement wrap to `bits` bits: BigInt.asIntN and the `|= 0`
(ToInt32) coercion of the source. -/
def wrapToIntN (bits : Nat) (v : Int) : Int :=
  (v + 2 ^ (bits - 1)).emod (2 ^ bits) - 2 ^ (bits - 1)

/-! ## Resolution context (InstructionContext in WasmComposer.ts) -/

/-- JavaScript Map.set on an association list: overwrite in place if the key
is present, append otherwise. -/
def mapSet (m : List (String × Nat)) (k : String) (v : Nat) : List (String × Nat) :=
  if m.any (fun p => p.1 == k) then
    m.map (fun p => if p.1 == k then (k, v) else p)
  else
    m ++ [(k, v)]

/-- JavaScript Map.get: value of the binding, or undefined (`Option.none`). -/
def mapGet (m : List (String × Nat)) (k : String) : Option Nat :=
  (m.find? (fun p => p.1 == k)).map (fun p => p.2)

/-- Registers `names` in declaration order with indices `base`, `base+1`, …
(the forEach loops of `emitModule` that populate the lookups). -/
def mapSetIndexed (m : List (String × Nat)) (names : List String) (base : Nat) :
    List (String × Nat) :=
  match names with
  | [] => m
  | n :: rest => mapSetIndexed (mapSet m n base) rest (base + 1)

/-- JavaScript Array.indexOf on the block stack: first index or -1. -/
def indexOfName (l : List String) (name : String) : Int :=
  match l.findIdx? (fun s => s == name) with
  | some i => (i : Int)
  | none => -1

/-- The resolution context: name-to-index lookups plus the block stack. -/
structure InstructionContext where
  functionsLookup : List (String × Nat)
  typesLookup : List (String × Nat)
  tablesLookup : List (String × Nat)
  memoriesLookup : List (String × Nat)
  globalsLookup : List (String × Nat)
  localsLookup : List (String × Nat)
  elementsLookup : List (String × Nat)
  dataLookup : List (String × Nat)
  blockStack : List String

/-- Context with every lookup and the block stack empty. -/
def emptyContext : InstructionContext :=
  ⟨[], [], [], [], [], [], [], [], []⟩

/-! ## Value-type emitters (emitValueType, emitStorageType, emitReferenceType) -/

/-- Bytes appended by `emitReferenceType`. -/
def emitReferenceTypeBytes : ReferenceType → List Nat
  | .shortTypeId typeId => [typeId]
  | .shortTypeIndex typeIndex => encodeSignedLeb128 (.num typeIndex)
  | .longNullableTypeId typeId => [0x63, typeId]
  | .longNullableTypeIndex typeIndex => 0x63 :: encodeSignedLeb128 (.num typeIndex)
  | .longNonNullableTypeId typeId => [0x64, typeId]
  | .longNonNullableTypeIndex typeIndex => 0x64 :: encodeSignedLeb128 (.num typeIndex)

/-- Bytes appended by `emitStorageType`: a number is a single byte, anything
else is a reference type. -/
def emitStorageTypeBytes : StorageType → List Nat
  | .num typeId => [typeId]
  | .ref refType => emitReferenceTypeBytes refType

/-- Bytes appended by `emitValueType` (it delegates to `emitStorageType`). -/
def emitValueTypeBytes (valueType : ValueType) : List Nat :=
  emitStorageTypeBytes valueType

/-- Bytes appended by `emitLengthPrefixedValueTypeArray`. -/
def emitLengthPrefixedValueTypeArrayBytes (valueTypes : List ValueType) : List Nat :=
  encodeUintNat valueTypes.length ++ (valueTypes.map emitValueTypeBytes).flatten

/-! ## Instruction model and immediates emitters (Ops.ts)

Each DSL constructor captures its operands in an `immediatesEmitter`
closure; the closure bodies are represented by the constructors of
`Immediates` and interpreted by `emitImmediatesBytes`.  The
`f32.const`/`f64.const` constructors (IEEE-754 payloads) are the only ones
left out of the model; no claim concerns them. -/
inductive Immediates where
  | simpleUints (immediates : List JsInt)
  | blockType (returns : Option ValueType)
  | branch (opcodeName : String) (targetBlockName : String)
  | brTable (blockNames : List String) (defaultBlockName : String)
  | branchOnCast (opcodeName : String) (targetBlockName : String)
      (type1 : Nat) (type2 : Nat) (branchOnType1Null : Bool) (branchOnType2Null : Bool)
  | callFunc (opcodeName : String) (functionName : String)
  | callIndirect (opcodeName : String) (typeName : String) (tableName : String)
  | typeIdx (opcodeName : String) (typeName : String)
  | typeIdxField (opcodeName : String) (typeName : String) (fieldIndex : Int)
  | arrayNewFixed (typeName : String) (arrayLength : Int)
  | typeAndData (opcodeName : String) (typeName : String) (dataEntryName : String)
  | typeAndElem (opcodeName : String) (typeName : String) (elementName : String)
  | localIdx (opcodeName : String) (localName : String)
  | globalIdx (opcodeName : String) (globalName : String)
  | tableIdx (opcodeName : String) (tableName : String)
  | tableInit (tableName : String) (elementName : String)
  | tableCopy (sourceTableName : String) (targetTableName : String)
  | elemDrop (elementName : String)
  | memoryIdx (opcodeName : String) (memoryName : String)
  | memoryInit (memoryName : String) (dataEntryName : String)
  | memoryCopy (memory1Name : String) (memory2Name : String)
  | dataDrop (dataEntryName : String)
  | i32Const (value : JsInt)
  | i64Const (value : JsInt)
  | refNull (heapType : Nat)
  | heapTypeByte (heapTypeId : Nat)
  | selectTypes (valueTypes : List ValueType)
  | rawBytes (bytes : List Nat)
deriving DecidableEq

/-- Instruction records.  A record whose `bodyInstructions` field is an
array is a block instruction (`isBlockInstruction`); the two constructors
mirror that distinction. -/
inductive Instruction where
  | simple (opcodeName : String) (immediates : Immediates)
  | block (opcodeName : String) (immediates : Immediates)
      (blockName : String) (bodyInstructions : List Instruction)

/-- Bytes appended by `emitLengthPrefixedUintArray` at call sites where the
elements are nonnegative (resolved indices). -/
def emitLengthPrefixedUintArrayNat (elements : List Nat) : List Nat :=
  encodeUintNat elements.length ++ (elements.map encodeUintNat).flatten

/-- Interpretation of the immediates-emitter closures of Ops.ts: the bytes
appended by `instruction.immediatesEmitter(builder, context)`, or the error
thrown.  Comments mark the two places where the source checks a JavaScript
Array.indexOf result against undefined: a number is never undefined, so the
check never fires and the unresolved -1 flows into emitUint. -/
def emitImmediatesBytes (ctx : InstructionContext) : Immediates → Except EmitError (List Nat)
  | .simpleUints immediates =>
    immediates.foldlM (fun acc immediate => do
      let bs ← encodeUnsignedLeb128 immediate
      pure (acc ++ bs)) []
  | .blockType returns =>
    match returns with
    | some valueType => .ok (emitValueTypeBytes valueType)
    | none => .ok [emptyType]
  | .branch _opcodeName targetBlockName =>
    -- createBranchInstruction: `if (blockIndex === undefined)` never holds
    -- for the number returned by indexOf, so no UnresolvedName is thrown
    -- and emitUint receives -1 when the name is absent.
    encodeUnsignedLeb128 (.num (indexOfName ctx.blockStack targetBlockName))
  | .brTable blockNames defaultBlockName => do
    let blockIndexes ← blockNames.mapM (fun blockName =>
      let blockIndex := indexOfName ctx.blockStack blockName
      if blockIndex = -1 then
        Except.error (.unresolvedName "br_table" blockName)
      else
        Except.ok blockIndex.toNat)
    let defaultBlockIndex := indexOfName ctx.blockStack defaultBlockName
    if defaultBlockIndex = -1 then
      .error (.unresolvedName "br_table" defaultBlockName)
    else
      .ok (emitLengthPrefixedUintArrayNat blockIndexes ++ encodeUintNat defaultBlockIndex.toNat)
  | .branchOnCast _opcodeName targetBlockName type1 type2 branchOnType1Null branchOnType2Null => do
    -- createBranchOnCastInstruction: same never-firing undefined check.
    let blockIndex := indexOfName ctx.blockStack targetBlockName
    let flags := (if branchOnType1Null then 1 else 0) |||
      ((if branchOnType2Null then 1 else 0) <<< 1)
    let depthBytes ← encodeUnsignedLeb128 (.num blockIndex)
    pure ([flags] ++ depthBytes ++ [type1, type2])
  | .callFunc opcodeName functionName =>
    match mapGet ctx.functionsLookup functionName with
    | none => .error (.unresolvedName opcodeName functionName)
    | some functionIndex => .ok (encodeUintNat functionIndex)
  | .callIndirect opcodeName typeName tableName =>
    match mapGet ctx.typesLookup typeName with
    | none => .error (.unresolvedName opcodeName typeName)
    | some typeIndex =>
      match mapGet ctx.tablesLookup tableName with
      | none => .error (.unresolvedName opcodeName tableName)
      | some tableIndex => .ok (encodeUintNat typeIndex ++ encodeUintNat tableIndex)
  | .typeIdx opcodeName typeName =>
    match mapGet ctx.typesLookup typeName with
    | none => .error (.unresolvedName opcodeName typeName)
    | some typeIndex => .ok (encodeUintNat typeIndex)
  | .typeIdxField opcodeName typeName fieldIndex =>
    match mapGet ctx.typesLookup typeName with
    | none => .error (.unresolvedName opcodeName typeName)
    | some typeIndex => do
      let fieldBytes ← encodeUnsignedLeb128 (.num fieldIndex)
      pure (encodeUintNat typeIndex ++ fieldBytes)
  | .arrayNewFixed typeName arrayLength =>
    match mapGet ctx.typesLookup typeName with
    | none => .error (.unresolvedName "array.new_fixed" typeName)
    | some typeIndex => do
      let lengthBytes ← encodeUnsignedLeb128 (.num arrayLength)
      pure (encodeUintNat typeIndex ++ lengthBytes)
  | .typeAndData opcodeName typeName dataEntryName =>
    match mapGet ctx.typesLookup typeName with
    | none => .error (.unresolvedName opcodeName typeName)
    | some typeIndex =>
      match mapGet ctx.dataLookup dataEntryName with
      | none => .error (.unresolvedName opcodeName dataEntryName)
      | some dataEntryIndex => .ok (encodeUintNat typeIndex ++ encodeUintNat dataEntryIndex)
  | .typeAndElem opcodeName typeName elementName =>
    match mapGet ctx.typesLookup typeName with
    | none => .error (.unresolvedName opcodeName typeName)
    | some typeIndex =>
      match mapGet ctx.elementsLookup elementName with
      | none => .error (.unresolvedName opcodeName elementName)
      | some elementIndex => .ok (encodeUintNat typeIndex ++ encodeUintNat elementIndex)
  | .localIdx opcodeName localName =>
    match mapGet ctx.localsLookup localName with
    | none => .error (.unresolvedName opcodeName localName)
    | some localIndex => .ok (encodeUintNat localIndex)
  | .globalIdx opcodeName globalName =>
    match mapGet ctx.globalsLookup globalName with
    | none => .error (.unresolvedName opcodeName globalName)
    | some globalIndex => .ok (encodeUintNat globalIndex)
  | .tableIdx opcodeName tableName =>
    match mapGet ctx.tablesLookup tableName with
    | none => .error (.unresolvedName opcodeName tableName)
    | some tableIndex => .ok (encodeUintNat tableIndex)
  | .tableInit tableName elementName =>
    match mapGet ctx.tablesLookup tableName with
    | none => .error (.unresolvedName "table.init" tableName)
    | some tableIndex =>
      match mapGet ctx.elementsLookup elementName with
      | none => .error (.unresolvedName "table.init" elementName)
      | some elementIndex => .ok (encodeUintNat tableIndex ++ encodeUintNat elementIndex)
  | .tableCopy sourceTableName targetTableName =>
    match mapGet ctx.tablesLookup sourceTableName with
    | none => .error (.unresolvedName "table.copy" sourceTableName)
    | some sourceTableIndex =>
      match mapGet ctx.tablesLookup targetTableName with
      | none => .error (.unresolvedName "table.copy" targetTableName)
      | some targetTableIndex =>
        .ok (encodeUintNat sourceTableIndex ++ encodeUintNat targetTableIndex)
  | .elemDrop elementName =>
    -- elem.drop in Ops.ts resolves the element name in tablesLookup.
    match mapGet ctx.tablesLookup elementName with
    | none => .error (.unresolvedName "elem.drop" elementName)
    | some elementIndex => .ok (encodeUintNat elementIndex)
  | .memoryIdx opcodeName memoryName =>
    match mapGet ctx.memoriesLookup memoryName with
    | none => .error (.unresolvedName opcodeName memoryName)
    | some memoryIndex => .ok (encodeUintNat memoryIndex)
  | .memoryInit memoryName dataEntryName =>
    match mapGet ctx.memoriesLookup memoryName with
    | none => .error (.unresolvedName "memory.init" memoryName)
    | some memoryIndex =>
      match mapGet ctx.dataLookup dataEntryName with
      | none => .error (.unresolvedName "memory.init" dataEntryName)
      | some dataEntryIndex => .ok (encodeUintNat dataEntryIndex ++ encodeUintNat memoryIndex)
  | .memoryCopy memory1Name memory2Name =>
    match mapGet ctx.memoriesLookup memory1Name with
    | none => .error (.unresolvedName "memory.copy" memory1Name)
    | some memory1Index =>
      -- memory.copy in Ops.ts reads memoriesLookup with memory1Name again
      -- for the second index.
      match mapGet ctx.memoriesLookup memory1Name with
      | none => .error (.unresolvedName "memory.copy" memory2Name)
      | some memory2Index => .ok (encodeUintNat memory1Index ++ encodeUintNat memory2Index)
  | .dataDrop dataEntryName =>
    match mapGet ctx.dataLookup dataEntryName with
    | none => .error (.unresolvedName "data.drop" dataEntryName)
    | some dataEntryIndex => .ok (encodeUintNat dataEntryIndex)
  | .i32Const value =>
    -- BigInt.asIntN(32, value) for bigints, `value |= 0` for numbers: both
    -- are the two's complement wrap to 32 bits, then a number is emitted.
    match value with
    | .big v => .ok (encodeSignedLeb128 (.num (wrapToIntN 32 v)))
    | .num v => .ok (encodeSignedLeb128 (.num (wrapToIntN 32 v)))
  | .i64Const value =>
    match value with
    | .big v => .ok (encodeSignedLeb128 (.big (wrapToIntN 64 v)))
    | .num v => .ok (encodeSignedLeb128 (.num v))
  | .refNull heapType => .ok [heapType]
  | .heapTypeByte heapTypeId => .ok [heapTypeId]
  | .selectTypes valueTypes => .ok (emitLengthPrefixedValueTypeArrayBytes valueTypes)
  | .rawBytes bytes => .ok bytes

/-! ## DSL constructors (the Op namespace of Ops.ts) -/

/-- createSimpleInstruction: opcode plus a list of unsigned immediates. -/
def createSimpleInstruction (opcodeName : String) (immediates : List JsInt := []) :
    Instruction :=
  .simple opcodeName (.simpleUints immediates)

/-- createBranchInstruction. -/
def createBranchInstruction (opcodeName : String) (targetBlockName : String) : Instruction :=
  .simple opcodeName (.branch opcodeName targetBlockName)

/-- createBranchOnCastInstruction. -/
def createBranchOnCastInstruction (opcodeName : String) (targetBlockName : String)
    (type1 type2 : Nat) (branchOnType1Null : Bool := false)
    (branchOnType2Null : Bool := false) : Instruction :=
  .simple opcodeName
    (.branchOnCast opcodeName targetBlockName type1 type2 branchOnType1Null branchOnType2Null)

/-- createNamedLocalInstruction. -/
def createNamedLocalInstruction (opcodeName : String) (localName : String) : Instruction :=
  .simple opcodeName (.localIdx opcodeName localName)

/-- createNamedGlobalInstruction. -/
def createNamedGlobalInstruction (opcodeName : String) (globalName : String) : Instruction :=
  .simple opcodeName (.globalIdx opcodeName globalName)

/-- createTableInstruction. -/
def createTableInstruction (opcodeName : String) (tableName : String) : Instruction :=
  .simple opcodeName (.tableIdx opcodeName tableName)

/-- createMemoryInstruction. -/
def createMemoryInstruction (opcodeName : String) (memoryName : String) : Instruction :=
  .simple opcodeName (.memoryIdx opcodeName memoryName)

/-- createGCTypeInstruction. -/
def createGCTypeInstruction (opcodeName : String) (typeName : String) : Instruction :=
  .simple opcodeName (.typeIdx opcodeName typeName)

/-- createBlockInstruction (the string-name overload wraps the name into an
options object whose `returns` field is absent). -/
def createBlockInstruction (opcodeName : String) (name : String)
    (returns : Option ValueType) (body : List Instruction) : Instruction :=
  .block opcodeName (.blockType returns) name body

/-- Op.block with a plain string name. -/
def Op.block (name : String) (body : List Instruction) : Instruction :=
  createBlockInstruction "block" name none body

/-- Op.loop with a plain string name. -/
def Op.loop (name : String) (body : List Instruction) : Instruction :=
  createBlockInstruction "loop" name none body

/-- Op.end (renamed: `end` is a Lean keyword). -/
def Op.end_ : Instruction := createSimpleInstruction "end"

/-- Op.unreachable. -/
def Op.unreachable : Instruction := createSimpleInstruction "unreachable"

/-- Op.nop. -/
def Op.nop : Instruction := createSimpleInstruction "nop"

/-- Op.br. -/
def Op.br (targetBlockName : String) : Instruction :=
  createBranchInstruction "br" targetBlockName

/-- Op.br_if. -/
def Op.br_if (targetBlockName : String) : Instruction :=
  createBranchInstruction "br_if" targetBlockName

/-- Op.br_on_null. -/
def Op.br_on_null (targetBlockName : String) : Instruction :=
  createBranchInstruction "br_on_null" targetBlockName

/-- Op.br_on_non_null. -/
def Op.br_on_non_null (targetBlockName : String) : Instruction :=
  createBranchInstruction "br_on_non_null" targetBlockName

/-- Op.br_on_cast. -/
def Op.br_on_cast (targetBlockName : String) (type1 type2 : Nat)
    (branchOnType1Null : Bool := false) (branchOnType2Null : Bool := false) : Instruction :=
  createBranchOnCastInstruction "br_on_cast" targetBlockName type1 type2
    branchOnType1Null branchOnType2Null

/-- Op.br_on_cast_fail. -/
def Op.br_on_cast_fail (targetBlockName : String) (type1 type2 : Nat)
    (branchOnType1Null : Bool := false) (branchOnType2Null : Bool := false) : Instruction :=
  createBranchOnCastInstruction "br_on_cast_fail" targetBlockName type1 type2
    branchOnType1Null branchOnType2Null

/-- Op.br_table. -/
def Op.br_table (blockNames : List String) (defaultBlockName : String) : Instruction :=
  .simple "br_table" (.brTable blockNames defaultBlockName)

/-- Op.call. -/
def Op.call (functionName : String) : Instruction :=
  .simple "call" (.callFunc "call" functionName)

/-- Op.return_call. -/
def Op.return_call (functionName : String) : Instruction :=
  .simple "return_call" (.callFunc "return_call" functionName)

/-- Op.call_indirect. -/
def Op.call_indirect (typeName tableName : String) : Instruction :=
  .simple "call_indirect" (.callIndirect "call_indirect" typeName tableName)

/-- Op.call_ref. -/
def Op.call_ref (typeName : String) : Instruction :=
  .simple "call_ref" (.typeIdx "call_ref" typeName)

/-- Op.ref.func. -/
def Op.ref.func (funcName : String) : Instruction :=
  .simple "ref.func" (.callFunc "ref.func" funcName)

/-- Op.local.get. -/
def Op.local.get (localName : String) : Instruction :=
  createNamedLocalInstruction "local.get" localName

/-- Op.local.set. -/
def Op.local.set (localName : String) : Instruction :=
  createNamedLocalInstruction "local.set" localName

/-- Op.local.tee. -/
def Op.local.tee (localName : String) : Instruction :=
  createNamedLocalInstruction "local.tee" localName

/-- Op.global.get. -/
def Op.global.get (globalName : String) : Instruction :=
  createNamedGlobalInstruction "global.get" globalName

/-- Op.global.set. -/
def Op.global.set (globalName : String) : Instruction :=
  createNamedGlobalInstruction "global.set" globalName

/-- Op.table.init. -/
def Op.table.init (tableName elementName : String) : Instruction :=
  .simple "table.init" (.tableInit tableName elementName)

/-- Op.table.copy. -/
def Op.table.copy (sourceTableName targetTableName : String) : Instruction :=
  .simple "table.copy" (.tableCopy sourceTableName targetTableName)

/-- Op.elem.drop: the element name is (incorrectly) resolved against the
tables lookup, exactly as the source does. -/
def Op.elem.drop (elementName : String) : Instruction :=
  .simple "elem.drop" (.elemDrop elementName)

/-- Op.memory.size. -/
def Op.memory.size (memoryName : String) : Instruction :=
  createMemoryInstruction "memory.size" memoryName

/-- Op.memory.grow. -/
def Op.memory.grow (memoryName : String) : Instruction :=
  createMemoryInstruction "memory.grow" memoryName

/-- Op.memory.fill. -/
def Op.memory.fill (memoryName : String) : Instruction :=
  createMemoryInstruction "memory.fill" memoryName

/-- Op.memory.init. -/
def Op.memory.init (memoryName dataEntryName : String) : Instruction :=
  .simple "memory.init" (.memoryInit memoryName dataEntryName)

/-- Op.memory.copy. -/
def Op.memory.copy (memory1Name memory2Name : String) : Instruction :=
  .simple "memory.copy" (.memoryCopy memory1Name memory2Name)

/-- Op.data.drop. -/
def Op.data.drop (dataEntryName : String) : Instruction :=
  .simple "data.drop" (.dataDrop dataEntryName)

/-- Op.i32.const. -/
def Op.i32.const (value : JsInt) : Instruction :=
  .simple "i32.const" (.i32Const value)

/-- Op.i64.const. -/
def Op.i64.const (value : JsInt) : Instruction :=
  .simple "i64.const" (.i64Const value)

/-- Op.i32.add. -/
def Op.i32.add : Instruction := createSimpleInstruction "i32.add"

/-- Op.drop. -/
def Op.drop : Instruction := createSimpleInstruction "drop"

/-- Op.i8x16.extract_lane_s. -/
def Op.i8x16.extract_lane_s (laneIndex : Int) : Instruction :=
  createSimpleInstruction "i8x16.extract_lane_s" [.num laneIndex]

/-- Op.i8x16.replace_lane. -/
def Op.i8x16.replace_lane (laneIndex : Int) : Instruction :=
  createSimpleInstruction "i8x16.replace_lane" [.num laneIndex]

/-- Op.i16x8.replace_lane. -/
def Op.i16x8.replace_lane (laneIndex : Int) : Instruction :=
  createSimpleInstruction "i16x8.replace_lane" [.num laneIndex]

/-- Op.i32x4.extract_lane. -/
def Op.i32x4.extract_lane (laneIndex : Int) : Instruction :=
  createSimpleInstruction "i32x4.extract_lane" [.num laneIndex]

/-- Op.i32x4.replace_lane: the source passes the mnemonic
i32x4.extract_lane to createSimpleInstruction. -/
def Op.i32x4.replace_lane (laneIndex : Int) : Instruction :=
  createSimpleInstruction "i32x4.extract_lane" [.num laneIndex]

/-- Op.i64x2.extract_lane. -/
def Op.i64x2.extract_lane (laneIndex : Int) : Instruction :=
  createSimpleInstruction "i64x2.extract_lane" [.num laneIndex]

/-- Op.i64x2.replace_lane: the source passes the mnemonic
i64x2.extract_lane to createSimpleInstruction. -/
def Op.i64x2.replace_lane (laneIndex : Int) : Instruction :=
  createSimpleInstruction "i64x2.extract_lane" [.num laneIndex]

/-- Op.f32x4.extract_lane. -/
def Op.f32x4.extract_lane (laneIndex : Int) : Instruction :=
  createSimpleInstruction "f32x4.extract_lane" [.num laneIndex]

/-- Op.f32x4.replace_lane: the source passes the mnemonic
f32x4.extract_lane to createSimpleInstruction. -/
def Op.f32x4.replace_lane (laneIndex : Int) : Instruction :=
  createSimpleInstruction "f32x4.extract_lane" [.num laneIndex]

/-- Op.f64x2.extract_lane. -/
def Op.f64x2.extract_lane (laneIndex : Int) : Instruction :=
  createSimpleInstruction "f64x2.extract_lane" [.num laneIndex]

/-- Op.f64x2.replace_lane: the source passes the mnemonic
f64x2.extract_lane to createSimpleInstruction. -/
def Op.f64x2.replace_lane (laneIndex : Int) : Instruction :=
  createSimpleInstruction "f64x2.extract_lane" [.num laneIndex]

/-! ## Instruction emitter (emitInstruction in WasmComposer.ts)

The opcode table (wasmOpcodes in src/src/Opcodes.ts) is not among the given
sources, so the emitters are parameterised by the pre-encoded byte cache
`tbl` standing for `opcodeNameToBytes`. -/

mutual

/-- Bytes appended by `emitInstruction`: the cached opcode bytes, then the
immediates, then — for a block instruction — its body emitted under a copy
of the context with the block name pushed onto the block stack. -/
def emitInstruction (tbl : String → List Nat) (ctx : InstructionContext) :
    Instruction → Except EmitError (List Nat)
  | .simple opcodeName immediates => do
    let immediateBytes ← emitImmediatesBytes ctx immediates
    pure (tbl opcodeName ++ immediateBytes)
  | .block opcodeName immediates blockName bodyInstructions => do
    let immediateBytes ← emitImmediatesBytes ctx immediates
    let bodyBytes ← emitInstructionList tbl
      { ctx with blockStack := blockName :: ctx.blockStack } bodyInstructions
    pure (tbl opcodeName ++ immediateBytes ++ bodyBytes)

/-- Bytes appended by `emitFlattenedInstructions` (each instruction in turn,
under the same context). -/
def emitInstructionList (tbl : String → List Nat) (ctx : InstructionContext) :
    List Instruction → Except EmitError (List Nat)
  | [] => .ok []
  | instruction :: rest => do
    let headBytes ← emitInstruction tbl ctx instruction
    let restBytes ← emitInstructionList tbl ctx rest
    pure (headBytes ++ restBytes)

end

/-! ## Module definition schema (WasmModuleDefinition and entry types) -/

/-- FieldType of the GC proposal (mutable defaults to false when absent). -/
structure FieldType where
  storageType : StorageType
  mutable : Bool
deriving DecidableEq

/-- CompositeType: ArrayType (a FieldType), StructType or FunctionSignature. -/
inductive CompositeType where
  | arrayType (fieldType : FieldType)
  | structType (fields : List FieldType)
  | functionSignature (paramTypes : List ValueType) (returnTypes : List ValueType)
deriving DecidableEq

/-- Subtype of the source (named SubType here; Subtype is taken by the
standard library): a composite type with optional supertype indexes and a
final flag. -/
structure SubType where
  name : String
  type : CompositeType
  supertypeIndexes : Option (List Nat)
  final : Bool
deriving DecidableEq

/-- SubtypeOrRecursiveType (`rec` is a Lean keyword, hence recursiveType). -/
inductive SubtypeOrRecursiveType where
  | sub (subtype : SubType)
  | recursiveType (name : String) (subtypes : List SubType)
deriving DecidableEq

/-- Name under which a custom type entry is registered in the types lookup. -/
def SubtypeOrRecursiveType.typeName : SubtypeOrRecursiveType → String
  | .sub subtype => subtype.name
  | .recursiveType name _ => name

/-- Returns field of a function definition: a single value type or a list. -/
inductive FunctionReturns where
  | one (valueType : ValueType)
  | many (valueTypes : List ValueType)

/-- FunctionDefinition.  `params` and `locals` are ordered name-to-type
mappings (JavaScript object literals, represented by their entry lists);
`exportFlag` is the source's `export` field (a Lean keyword). -/
structure FunctionDefinition where
  name : String
  exportFlag : Bool
  params : List (String × ValueType)
  returns : FunctionReturns
  locals : List (String × ValueType)
  instructions : List Instruction

/-- Limits. -/
structure Limits where
  minimum : Nat
  maximum : Option Nat
deriving DecidableEq

/-- TableEntry. -/
structure TableEntry where
  name : String
  referenceType : ReferenceType
  limits : Limits
  exportFlag : Bool
deriving DecidableEq

/-- MemoryEntry (extends Limits in the source). -/
structure MemoryEntry where
  name : String
  limits : Limits
  exportFlag : Bool
deriving DecidableEq

/-- GlobalType. -/
structure GlobalType where
  type : ValueType
  mutable : Bool
deriving DecidableEq

/-- GlobalEntry (extends GlobalType in the source). -/
structure GlobalEntry where
  name : String
  type : ValueType
  mutable : Bool
  instructions : List Instruction
  exportFlag : Bool

/-- ImportDescription: the four import kinds; the constructor index is the
ImportKind kind byte (Function 0, Table 1, Memory 2, Global 3). -/
inductive ImportDescription where
  | function (index : Nat)
  | table (tableEntry : TableEntry)
  | memory (memoryLimits : Limits)
  | global (globalType : GlobalType)
deriving DecidableEq

/-- ImportEntry. -/
structure ImportEntry where
  moduleName : String
  importName : String
  description : ImportDescription
deriving DecidableEq

/-- ExportKind.Function = 0. -/
def ExportKind.function : Nat := 0

/-- ExportKind.Table = 1. -/
def ExportKind.table : Nat := 1

/-- ExportKind.Memory = 2. -/
def ExportKind.memory : Nat := 2

/-- ExportKind.Global = 3. -/
def ExportKind.global : Nat := 3

/-- ExportEntry: name, kind byte and resolved index. -/
structure ExportEntry where
  name : String
  kind : Nat
  index : Nat
deriving DecidableEq

/-- StartEntry. -/
structure StartEntry where
  functionIndex : Nat
deriving DecidableEq

/-- ElementEntry: the eight variants; the constructor order follows the
ElementEntryType flags values 0–7. -/
inductive ElementEntry where
  | activeTableZero (name : String) (instructions : List Instruction)
      (functionIndexes : List Nat)
  | passive (name : String) (functionIndexes : List Nat)
  | active (name : String) (tableIndex : Nat) (instructions : List Instruction)
      (functionIndexes : List Nat)
  | declarative (name : String) (functionIndexes : List Nat)
  | activeTableZeroWithInstructions (name : String) (instructions : List Instruction)
      (functionInstructions : List Instruction)
  | passiveWithInstructions (name : String) (referenceType : ReferenceType)
      (functionInstructions : List Instruction)
  | activeWithInstructions (name : String) (tableIndex : Nat)
      (instructions : List Instruction) (referenceType : ReferenceType)
      (functionInstructions : List Instruction)
  | declarativeWithInstructions (name : String) (referenceType : ReferenceType)
      (functionInstructions : List Instruction)

/-- Name of an element entry (used for the elements lookup). -/
def ElementEntry.entryName : ElementEntry → String
  | .activeTableZero name _ _ => name
  | .passive name _ => name
  | .active name _ _ _ => name
  | .declarative name _ => name
  | .activeTableZeroWithInstructions name _ _ => name
  | .passiveWithInstructions name _ _ => name
  | .activeWithInstructions name _ _ _ _ => name
  | .declarativeWithInstructions name _ _ => name

/-- DataEntry: the three variants with their DataEntryType flags values
(ActiveMemoryZero 0, Passive 1, Active 2). -/
inductive DataEntry where
  | activeMemoryZero (name : String) (instructions : List Instruction) (data : List Nat)
  | passive (name : String) (data : List Nat)
  | active (name : String) (memoryIndex : Nat) (instructions : List Instruction)
      (data : List Nat)

/-- Name of a data entry. -/
def DataEntry.entryName : DataEntry → String
  | .activeMemoryZero name _ _ => name
  | .passive name _ => name
  | .active name _ _ _ => name

/-- CustomSection. -/
structure CustomSection where
  name : String
  content : List Nat
deriving DecidableEq

/-- WasmModuleDefinition: every field is optional in the source and
defaulted to empty by emitModule, so the defaults are baked in here
(making `{}` the empty module). -/
structure WasmModuleDefinition where
  functions : List FunctionDefinition := []
  globals : List GlobalEntry := []
  customTypes : List SubtypeOrRecursiveType := []
  imports : List ImportEntry := []
  memories : List MemoryEntry := []
  start : Option StartEntry := none
  tables : List TableEntry := []
  elements : List ElementEntry := []
  data : List DataEntry := []
  customSections : List CustomSection := []

/-! ## Section ids, preamble and shared emitters -/

/-- SectionId.Custom = 0. -/
def SectionId.Custom : Nat := 0

/-- SectionId.Types = 1. -/
def SectionId.Types : Nat := 1

/-- SectionId.Imports = 2. -/
def SectionId.Imports : Nat := 2

/-- SectionId.Functions = 3. -/
def SectionId.Functions : Nat := 3

/-- SectionId.Tables = 4. -/
def SectionId.Tables : Nat := 4

/-- SectionId.Memory = 5. -/
def SectionId.Memory : Nat := 5

/-- SectionId.Globals = 6. -/
def SectionId.Globals : Nat := 6

/-- SectionId.Exports = 7. -/
def SectionId.Exports : Nat := 7

/-- SectionId.Start = 8. -/
def SectionId.Start : Nat := 8

/-- SectionId.Elements = 9. -/
def SectionId.Elements : Nat := 9

/-- SectionId.Code = 10. -/
def SectionId.Code : Nat := 10

/-- SectionId.Data = 11. -/
def SectionId.Data : Nat := 11

/-- SectionId.DataCount = 12. -/
def SectionId.DataCount : Nat := 12

/-- The 8 preamble bytes: magic cookie and version number. -/
def preamble : List Nat :=
  [0x00, 0x61, 0x73, 0x6d, 0x01, 0x00, 0x00, 0x00]

/-- Bytes appended by `emitLengthPrefixedBytes`. -/
def lengthPrefixedBytes (bytes : List Nat) : List Nat :=
  encodeUintNat bytes.length ++ bytes

/-- Modelled from the spec: UTF-8 bytes of one code point.  The source's
encodeUTF8 delegates to the platform TextEncoder (src/src/utilities has no
implementation of it), so the standard UTF-8 scheme the spec refers to is
spelled out. -/
def utf8EncodeChar (c : Char) : List Nat :=
  let n := c.toNat
  if n < 0x80 then [n]
  else if n < 0x800 then
    [0xC0 ||| (n >>> 6), 0x80 ||| (n &&& 0x3F)]
  else if n < 0x10000 then
    [0xE0 ||| (n >>> 12), 0x80 ||| ((n >>> 6) &&& 0x3F), 0x80 ||| (n &&& 0x3F)]
  else
    [0xF0 ||| (n >>> 18), 0x80 ||| ((n >>> 12) &&& 0x3F),
     0x80 ||| ((n >>> 6) &&& 0x3F), 0x80 ||| (n &&& 0x3F)]

/-- Modelled from the spec: encodeUTF8 over a whole string. -/
def encodeUTF8 (str : String) : List Nat :=
  str.data.flatMap utf8EncodeChar

/-- Bytes appended by `emitString`: length prefix, then UTF-8 content. -/
def emitStringBytes (str : String) : List Nat :=
  let content := encodeUTF8 str
  encodeUintNat content.length ++ content

/-- Bytes appended by `emitLimits`. -/
def emitLimitsBytes (entry : Limits) : List Nat :=
  match entry.maximum with
  | some maximum => 1 :: (encodeUintNat entry.minimum ++ encodeUintNat maximum)
  | none => 0 :: encodeUintNat entry.minimum

/-- Bytes appended by `emitTableEntry`. -/
def emitTableEntryBytes (entry : TableEntry) : List Nat :=
  emitReferenceTypeBytes entry.referenceType ++ emitLimitsBytes entry.limits

/-- Bytes appended by `emitGlobalType`: value type then mutability byte. -/
def emitGlobalTypeBytes (type : ValueType) (mutable : Bool) : List Nat :=
  emitValueTypeBytes type ++ [if mutable then 1 else 0]

/-- Bytes appended by `emitStructType`. -/
def emitStructTypeBytes (fields : List FieldType) : List Nat :=
  encodeUintNat fields.length ++
    (fields.map (fun field =>
      emitStorageTypeBytes field.storageType ++ [if field.mutable then 1 else 0])).flatten

/-- Bytes appended by `emitFunctionSignature`. -/
def emitFunctionSignatureBytes (paramTypes returnTypes : List ValueType) : List Nat :=
  emitLengthPrefixedValueTypeArrayBytes paramTypes ++
    emitLengthPrefixedValueTypeArrayBytes returnTypes

/-- Bytes appended by `emitCompositeType`. -/
def emitCompositeTypeBytes : CompositeType → List Nat
  | .arrayType fieldType => 0x5e :: emitStorageTypeBytes fieldType.storageType
  | .structType fields => 0x5f :: emitStructTypeBytes fields
  | .functionSignature paramTypes returnTypes =>
    0x60 :: emitFunctionSignatureBytes paramTypes returnTypes

/-- Bytes appended by `emitSubtype`. -/
def emitSubtypeBytes (subtype : SubType) : List Nat :=
  (match subtype.supertypeIndexes with
   | some supertypeIndexes =>
     (if subtype.final then [0x4f] else [0x50]) ++
       emitLengthPrefixedUintArrayNat supertypeIndexes
   | none => []) ++ emitCompositeTypeBytes subtype.type

/-- Bytes appended by `emitSubtypeOrRecursiveType`. -/
def emitSubtypeOrRecursiveTypeBytes : SubtypeOrRecursiveType → List Nat
  | .sub subtype => emitSubtypeBytes subtype
  | .recursiveType _ subtypes =>
    0x4e :: (encodeUintNat subtypes.length ++ (subtypes.map emitSubtypeBytes).flatten)

/-! ## Section emitters (WasmBuilder methods) -/

/-- emitTypesSection: id byte, then a length-prefixed body of the entry
count followed by the entries; an empty list emits nothing. -/
def emitTypesSection (types : List SubtypeOrRecursiveType) : List Nat :=
  if types.length = 0 then [] else
    SectionId.Types :: lengthPrefixedBytes
      (encodeUintNat types.length ++ (types.map emitSubtypeOrRecursiveTypeBytes).flatten)

/-- Bytes of one import entry. -/
def emitImportEntryBytes (entry : ImportEntry) : List Nat :=
  emitStringBytes entry.moduleName ++ emitStringBytes entry.importName ++
    (match entry.description with
     | .function index => 0 :: encodeUintNat index
     | .table tableEntry => 1 :: emitTableEntryBytes tableEntry
     | .memory memoryLimits => 2 :: emitLimitsBytes memoryLimits
     | .global globalType => 3 :: emitGlobalTypeBytes globalType.type globalType.mutable)

/-- emitImportsSection. -/
def emitImportsSection (importEntries : List ImportEntry) : List Nat :=
  if importEntries.length = 0 then [] else
    SectionId.Imports :: lengthPrefixedBytes
      (encodeUintNat importEntries.length ++ (importEntries.map emitImportEntryBytes).flatten)

/-- emitFunctionsSection: a length-prefixed array of type indices, one per
function; function i uses type index i. -/
def emitFunctionsSection (functionDefinitions : List FunctionDefinition) : List Nat :=
  if functionDefinitions.length = 0 then [] else
    SectionId.Functions :: lengthPrefixedBytes
      (emitLengthPrefixedUintArrayNat (List.range functionDefinitions.length))

/-- emitTablesSection. -/
def emitTablesSection (tableEntries : List TableEntry) : List Nat :=
  if tableEntries.length = 0 then [] else
    SectionId.Tables :: lengthPrefixedBytes
      (encodeUintNat tableEntries.length ++ (tableEntries.map emitTableEntryBytes).flatten)

/-- emitMemoriesSection (each entry is its limits). -/
def emitMemoriesSection (memoryEntries : List MemoryEntry) : List Nat :=
  if memoryEntries.length = 0 then [] else
    SectionId.Memory :: lengthPrefixedBytes
      (encodeUintNat memoryEntries.length ++
        (memoryEntries.map (fun entry => emitLimitsBytes entry.limits)).flatten)

/-- emitGlobalsSection: global type, then initializer instructions. -/
def emitGlobalsSection (tbl : String → List Nat) (ctx : InstructionContext)
    (globalEntries : List GlobalEntry) : Except EmitError (List Nat) :=
  if globalEntries.length = 0 then .ok [] else do
    let bodies ← globalEntries.mapM (fun entry => do
      let instructionBytes ← emitInstructionList tbl ctx entry.instructions
      pure (emitGlobalTypeBytes entry.type entry.mutable ++ instructionBytes))
    pure (SectionId.Globals :: lengthPrefixedBytes
      (encodeUintNat globalEntries.length ++ bodies.flatten))

/-- Bytes of one export entry: length-prefixed name, kind byte, index. -/
def emitExportEntryBytes (entry : ExportEntry) : List Nat :=
  emitStringBytes entry.name ++ entry.kind :: encodeUintNat entry.index

/-- emitExportsSection. -/
def emitExportsSection (exportEntries : List ExportEntry) : List Nat :=
  if exportEntries.length = 0 then [] else
    SectionId.Exports :: lengthPrefixedBytes
      (encodeUintNat exportEntries.length ++ (exportEntries.map emitExportEntryBytes).flatten)

/-- emitStartSection. -/
def emitStartSection (startEntry : StartEntry) : List Nat :=
  SectionId.Start :: lengthPrefixedBytes (encodeUintNat startEntry.functionIndex)

/-- Bytes appended by `emitLengthPrefixedInstructionsArray`. -/
def emitLengthPrefixedInstructionsArrayBytes (tbl : String → List Nat)
    (ctx : InstructionContext) (instructions : List Instruction) :
    Except EmitError (List Nat) := do
  let bytes ← emitInstructionList tbl ctx instructions
  pure (encodeUintNat instructions.length ++ bytes)

/-- Bytes of one element entry: the flags byte (elemkind bytes are always
0x00), then the variant payload. -/
def emitElementEntryBytes (tbl : String → List Nat) (ctx : InstructionContext) :
    ElementEntry → Except EmitError (List Nat)
  | .activeTableZero _ instructions functionIndexes => do
    let instructionBytes ← emitInstructionList tbl ctx instructions
    pure (0 :: (instructionBytes ++ emitLengthPrefixedUintArrayNat functionIndexes))
  | .passive _ functionIndexes =>
    .ok (1 :: 0x00 :: emitLengthPrefixedUintArrayNat functionIndexes)
  | .active _ tableIndex instructions functionIndexes => do
    let instructionBytes ← emitInstructionList tbl ctx instructions
    pure (2 :: (encodeUintNat tableIndex ++ instructionBytes ++
      0x00 :: emitLengthPrefixedUintArrayNat functionIndexes))
  | .declarative _ functionIndexes =>
    .ok (3 :: 0x00 :: emitLengthPrefixedUintArrayNat functionIndexes)
  | .activeTableZeroWithInstructions _ instructions functionInstructions => do
    let instructionBytes ← emitInstructionList tbl ctx instructions
    let functionInstructionBytes ←
      emitLengthPrefixedInstructionsArrayBytes tbl ctx functionInstructions
    pure (4 :: (instructionBytes ++ functionInstructionBytes))
  | .passiveWithInstructions _ referenceType functionInstructions => do
    let functionInstructionBytes ←
      emitLengthPrefixedInstructionsArrayBytes tbl ctx functionInstructions
    pure (5 :: (emitReferenceTypeBytes referenceType ++ functionInstructionBytes))
  | .activeWithInstructions _ tableIndex instructions referenceType functionInstructions => do
    let instructionBytes ← emitInstructionList tbl ctx instructions
    let functionInstructionBytes ←
      emitLengthPrefixedInstructionsArrayBytes tbl ctx functionInstructions
    pure (6 :: (encodeUintNat tableIndex ++ instructionBytes ++
      emitReferenceTypeBytes referenceType ++ functionInstructionBytes))
  | .declarativeWithInstructions _ referenceType functionInstructions => do
    let functionInstructionBytes ←
      emitLengthPrefixedInstructionsArrayBytes tbl ctx functionInstructions
    pure (7 :: (emitReferenceTypeBytes referenceType ++ functionInstructionBytes))

/-- emitElementsSection. -/
def emitElementsSection (tbl : String → List Nat) (ctx : InstructionContext)
    (elementEntries : List ElementEntry) : Except EmitError (List Nat) :=
  if elementEntries.length = 0 then .ok [] else do
    let bodies ← elementEntries.mapM (emitElementEntryBytes tbl ctx)
    pure (SectionId.Elements :: lengthPrefixedBytes
      (encodeUintNat elementEntries.length ++ bodies.flatten))

/-- emitDataCountSection. -/
def emitDataCountSection (dataCount : Nat) : List Nat :=
  SectionId.DataCount :: lengthPrefixedBytes (encodeUintNat dataCount)

/-- Body of one function in the code section: the locals lookup is rebuilt
(parameters first, then declared locals), each declared local is emitted as
its own group of one, and the whole body is length prefixed. -/
def emitFunctionBodyBytes (tbl : String → List Nat) (ctx : InstructionContext)
    (entry : FunctionDefinition) : Except EmitError (List Nat) := do
  let localNames := entry.params.map (fun p => p.1) ++ entry.locals.map (fun p => p.1)
  let bodyCtx := { ctx with localsLookup := mapSetIndexed [] localNames 0 }
  let localTypes := entry.locals.map (fun p => p.2)
  let instructionBytes ← emitInstructionList tbl bodyCtx entry.instructions
  pure (lengthPrefixedBytes
    (encodeUintNat localTypes.length ++
      (localTypes.map (fun localEntry =>
        encodeUintNat 1 ++ emitValueTypeBytes localEntry)).flatten ++
      instructionBytes))

/-- emitCodeSection. -/
def emitCodeSection (tbl : String → List Nat) (ctx : InstructionContext)
    (functionDefinitions : List FunctionDefinition) : Except EmitError (List Nat) :=
  if functionDefinitions.length = 0 then .ok [] else do
    let bodies ← functionDefinitions.mapM (emitFunctionBodyBytes tbl ctx)
    pure (SectionId.Code :: lengthPrefixedBytes
      (encodeUintNat functionDefinitions.length ++ bodies.flatten))

/-- Bytes of one data entry: flags byte, then the variant payload. -/
def emitDataEntryBytes (tbl : String → List Nat) (ctx : InstructionContext) :
    DataEntry → Except EmitError (List Nat)
  | .activeMemoryZero _ instructions data => do
    let instructionBytes ← emitInstructionList tbl ctx instructions
    pure (0 :: (instructionBytes ++ lengthPrefixedBytes data))
  | .active _ memoryIndex instructions data => do
    let instructionBytes ← emitInstructionList tbl ctx instructions
    pure (2 :: (encodeUintNat memoryIndex ++ instructionBytes ++ lengthPrefixedBytes data))
  | .passive _ data =>
    .ok (1 :: lengthPrefixedBytes data)

/-- emitDataSection. -/
def emitDataSection (tbl : String → List Nat) (ctx : InstructionContext)
    (dataEntries : List DataEntry) : Except EmitError (List Nat) :=
  if dataEntries.length = 0 then .ok [] else do
    let bodies ← dataEntries.mapM (emitDataEntryBytes tbl ctx)
    pure (SectionId.Data :: lengthPrefixedBytes
      (encodeUintNat dataEntries.length ++ bodies.flatten))

/-- emitCustomSection: id 0, then a length-prefixed body of the
length-prefixed name followed by the raw content. -/
def emitCustomSectionBytes (customSection : CustomSection) : List Nat :=
  SectionId.Custom :: lengthPrefixedBytes
    (emitStringBytes customSection.name ++ customSection.content)

/-! ## Module encoder (emitModule) -/

/-- Resolution context built by the preparation pass of `emitModule`.  Note
that no loop of the source registers data segment names: `dataLookup` stays
the empty map it was initialised to. -/
def buildContext (m : WasmModuleDefinition) : InstructionContext where
  functionsLookup := mapSetIndexed [] (m.functions.map (fun f => f.name)) 0
  typesLookup :=
    mapSetIndexed (mapSetIndexed [] (m.functions.map (fun f => f.name)) 0)
      (m.customTypes.map SubtypeOrRecursiveType.typeName) m.functions.length
  tablesLookup := mapSetIndexed [] (m.tables.map (fun t => t.name)) 0
  memoriesLookup := mapSetIndexed [] (m.memories.map (fun t => t.name)) 0
  globalsLookup := mapSetIndexed [] (m.globals.map (fun g => g.name)) 0
  localsLookup := []
  elementsLookup := mapSetIndexed [] (m.elements.map ElementEntry.entryName) 0
  dataLookup := []
  blockStack := []

/-- Export entries pushed by the preparation pass: the four forEach loops
of emitModule append exported functions, then exported tables, then
exported globals, then exported memories, each keeping its
declaration-order index and kind. -/
def deriveExports (m : WasmModuleDefinition) : List ExportEntry :=
  (m.functions.enum.filterMap fun p =>
    if p.2.exportFlag then some ⟨p.2.name, ExportKind.function, p.1⟩ else none) ++
  (m.tables.enum.filterMap fun p =>
    if p.2.exportFlag then some ⟨p.2.name, ExportKind.table, p.1⟩ else none) ++
  (m.globals.enum.filterMap fun p =>
    if p.2.exportFlag then some ⟨p.2.name, ExportKind.global, p.1⟩ else none) ++
  (m.memories.enum.filterMap fun p =>
    if p.2.exportFlag then some ⟨p.2.name, ExportKind.memory, p.1⟩ else none)

/-- Type entry derived from a function definition: a bare subtype whose
composite body is the function signature (the source object carries no
name, supertypes or final flag; none of them is read during emission). -/
def functionSignatureOf (entry : FunctionDefinition) : SubtypeOrRecursiveType :=
  .sub
    { name := ""
      type := .functionSignature (entry.params.map (fun p => p.2))
        (match entry.returns with
         | .one valueType => [valueType]
         | .many valueTypes => valueTypes)
      supertypeIndexes := none
      final := false }

/-- emitModule: preamble, then the sections in the fixed source order, then
one custom section per supplied custom section. -/
def emitModule (tbl : String → List Nat) (moduleDefinition : WasmModuleDefinition) :
    Except EmitError (List Nat) := do
  let globalInstructionContext := buildContext moduleDefinition
  let exportsDefinitions := deriveExports moduleDefinition
  let functionTypes := moduleDefinition.functions.map functionSignatureOf
  let typesBytes := emitTypesSection (functionTypes ++ moduleDefinition.customTypes)
  let importsBytes := emitImportsSection moduleDefinition.imports
  let functionsBytes := emitFunctionsSection moduleDefinition.functions
  let tablesBytes := emitTablesSection moduleDefinition.tables
  let memoriesBytes := emitMemoriesSection moduleDefinition.memories
  let globalsBytes ← emitGlobalsSection tbl globalInstructionContext moduleDefinition.globals
  let exportsBytes := emitExportsSection exportsDefinitions
  let startBytes := match moduleDefinition.start with
    | some startDefinition => emitStartSection startDefinition
    | none => []
  let elementsBytes ←
    emitElementsSection tbl globalInstructionContext moduleDefinition.elements
  let dataCountBytes :=
    if moduleDefinition.data.length > 0 then
      emitDataCountSection moduleDefinition.data.length
    else []
  let codeBytes ← emitCodeSection tbl globalInstructionContext moduleDefinition.functions
  let dataBytes ← emitDataSection tbl globalInstructionContext moduleDefinition.data
  let customBytes := (moduleDefinition.customSections.map emitCustomSectionBytes).flatten
  pure (preamble ++ typesBytes ++ importsBytes ++ functionsBytes ++ tablesBytes ++
    memoriesBytes ++ globalsBytes ++ exportsBytes ++ startBytes ++ elementsBytes ++
    dataCountBytes ++ codeBytes ++ dataBytes ++ customBytes)

/-! ## Helper lemmas and concrete instances for the claim theorems -/

/-- Modelled from the spec: the opcode table (wasmOpcodes in
src/src/Opcodes.ts) is not among the given sources; Ops.ts only names the
mnemonics.  This function stands for the pre-encoded opcodeNameToBytes
cache on the mnemonics exercised by concrete witnesses, following the
WebAssembly opcode assignments the spec's scenarios exhibit (i32.const
0x41, end 0x0B, local.get 0x20, i32.add 0x6A, block type byte 0x40) and
giving every mnemonic bytes distinct from the other mnemonics of its
family. -/
def specOpcodeTable (name : String) : List Nat :=
  if name == "block" then [0x02]
  else if name == "loop" then [0x03]
  else if name == "end" then [0x0B]
  else if name == "br" then [0x0C]
  else if name == "br_if" then [0x0D]
  else if name == "br_table" then [0x0E]
  else if name == "call" then [0x10]
  else if name == "local.get" then [0x20]
  else if name == "local.set" then [0x21]
  else if name == "i32.const" then [0x41]
  else if name == "i32.add" then [0x6A]
  else if name == "memory.copy" then [0xFC, 0x0A]
  else if name == "data.drop" then [0xFC, 0x09]
  else if name == "elem.drop" then [0xFC, 0x0D]
  else if name == "i32x4.extract_lane" then [0xFD, 0x1B]
  else if name == "i32x4.replace_lane" then [0xFD, 0x1C]
  else if name == "i64x2.extract_lane" then [0xFD, 0x1D]
  else if name == "i64x2.replace_lane" then [0xFD, 0x1E]
  else if name == "f32x4.extract_lane" then [0xFD, 0x1F]
  else if name == "f32x4.replace_lane" then [0xFD, 0x20]
  else if name == "f64x2.extract_lane" then [0xFD, 0x21]
  else if name == "f64x2.replace_lane" then [0xFD, 0x22]
  else [0x00]

/-- Byte frame of one emitted section: id byte, then length-prefixed body. -/
def sectionFrame (id : Nat) (body : List Nat) : List Nat :=
  id :: lengthPrefixedBytes body

theorem encodeUnsignedLeb128_natCast (n : Nat) :
    encodeUnsignedLeb128 (.num (n : Int)) = .ok (encodeUintNat n) := by
  simp only [encodeUnsignedLeb128, encodeUintNat]
  rw [if_neg (by omega : ¬ (n : Int) < 0)]
  by_cases h : (n : Int) < 2 ^ 31
  · rw [if_pos h, Int.toNat_natCast, if_pos (by exact_mod_cast h)]
  · rw [if_neg h, Int.toNat_natCast, if_neg (by exact_mod_cast h)]

theorem except_bind_eq_ok {α β : Type} {e : Except EmitError α}
    {f : α → Except EmitError β} {out : β}
    (h : (e >>= f) = .ok out) : ∃ v, e = .ok v ∧ f v = .ok out := by
  cases e with
  | error err =>
    exact Except.noConfusion (show (Except.error err : Except EmitError β) = .ok out from h)
  | ok v => exact ⟨v, rfl, h⟩

/-- Success payload of an Except value, used by concrete witnesses. -/
def exceptGetOk : Except EmitError (List Nat) → List Nat
  | .ok v => v
  | .error _ => []

theorem emitTypesSection_shape (types : List SubtypeOrRecursiveType) (h : types ≠ []) :
    ∃ body, emitTypesSection types = sectionFrame SectionId.Types body :=
  ⟨_, by
    unfold emitTypesSection
    rw [if_neg (by simpa [List.length_eq_zero] using h)]
    rfl⟩

theorem emitImportsSection_shape (importEntries : List ImportEntry)
    (h : importEntries ≠ []) :
    ∃ body, emitImportsSection importEntries = sectionFrame SectionId.Imports body :=
  ⟨_, by
    unfold emitImportsSection
    rw [if_neg (by simpa [List.length_eq_zero] using h)]
    rfl⟩

theorem emitFunctionsSection_shape (functionDefinitions : List FunctionDefinition)
    (h : functionDefinitions ≠ []) :
    ∃ body,
      emitFunctionsSection functionDefinitions = sectionFrame SectionId.Functions body :=
  ⟨_, by
    unfold emitFunctionsSection
    rw [if_neg (by simpa [List.length_eq_zero] using h)]
    rfl⟩

theorem emitTablesSection_shape (tableEntries : List TableEntry) (h : tableEntries ≠ []) :
    ∃ body, emitTablesSection tableEntries = sectionFrame SectionId.Tables body :=
  ⟨_, by
    unfold emitTablesSection
    rw [if_neg (by simpa [List.length_eq_zero] using h)]
    rfl⟩

theorem emitMemoriesSection_shape (memoryEntries : List MemoryEntry)
    (h : memoryEntries ≠ []) :
    ∃ body, emitMemoriesSection memoryEntries = sectionFrame SectionId.Memory body :=
  ⟨_, by
    unfold emitMemoriesSection
    rw [if_neg (by simpa [List.length_eq_zero] using h)]
    rfl⟩

theorem emitExportsSection_shape (exportEntries : List ExportEntry)
    (h : exportEntries ≠ []) :
    ∃ body, emitExportsSection exportEntries = sectionFrame SectionId.Exports body :=
  ⟨_, by
    unfold emitExportsSection
    rw [if_neg (by simpa [List.length_eq_zero] using h)]
    rfl⟩

theorem emitGlobalsSection_shape (tbl : String → List Nat) (ctx : InstructionContext)
    (globalEntries : List GlobalEntry) (out : List Nat) (h : globalEntries ≠ [])
    (hok : emitGlobalsSection tbl ctx globalEntries = .ok out) :
    ∃ body, out = sectionFrame SectionId.Globals body := by
  unfold emitGlobalsSection at hok
  rw [if_neg (by simpa [List.length_eq_zero] using h)] at hok
  obtain ⟨bodies, -, hpure⟩ := except_bind_eq_ok hok
  exact ⟨_, (Except.ok.inj hpure).symm⟩

theorem emitElementsSection_shape (tbl : String → List Nat) (ctx : InstructionContext)
    (elementEntries : List ElementEntry) (out : List Nat) (h : elementEntries ≠ [])
    (hok : emitElementsSection tbl ctx elementEntries = .ok out) :
    ∃ body, out = sectionFrame SectionId.Elements body := by
  unfold emitElementsSection at hok
  rw [if_neg (by simpa [List.length_eq_zero] using h)] at hok
  obtain ⟨bodies, -, hpure⟩ := except_bind_eq_ok hok
  exact ⟨_, (Except.ok.inj hpure).symm⟩

theorem emitCodeSection_shape (tbl : String → List Nat) (ctx : InstructionContext)
    (functionDefinitions : List FunctionDefinition) (out : List Nat)
    (h : functionDefinitions ≠ [])
    (hok : emitCodeSection tbl ctx functionDefinitions = .ok out) :
    ∃ body, out = sectionFrame SectionId.Code body := by
  unfold emitCodeSection at hok
  rw [if_neg (by simpa [List.length_eq_zero] using h)] at hok
  obtain ⟨bodies, -, hpure⟩ := except_bind_eq_ok hok
  exact ⟨_, (Except.ok.inj hpure).symm⟩

theorem emitDataSection_shape (tbl : String → List Nat) (ctx : InstructionContext)
    (dataEntries : List DataEntry) (out : List Nat) (h : dataEntries ≠ [])
    (hok : emitDataSection tbl ctx dataEntries = .ok out) :
    ∃ body, out = sectionFrame SectionId.Data body := by
  unfold emitDataSection at hok
  rw [if_neg (by simpa [List.length_eq_zero] using h)] at hok
  obtain ⟨bodies, -, hpure⟩ := except_bind_eq_ok hok
  exact ⟨_, (Except.ok.inj hpure).symm⟩

/-- Module definition with at least one entry of every kind, every name
resolvable, used as the concrete instance for claim C1. -/
def concreteModule : WasmModuleDefinition where
  functions := [
    { name := "f",
      exportFlag := true,
      params := [],
      returns := .many [],
      locals := [],
      instructions := [Op.end_] }]
  globals := [
    { name := "g",
      type := NumberTypeId.i32,
      mutable := false,
      instructions := [Op.i32.const (.num 0), Op.end_],
      exportFlag := false }]
  customTypes := []
  imports := [
    { moduleName := "m",
      importName := "i",
      description := .function 0 }]
  memories := [
    { name := "mem",
      limits := { minimum := 1, maximum := none },
      exportFlag := false }]
  start := some { functionIndex := 0 }
  tables := [
    { name := "t",
      referenceType := .shortTypeId 0x70,
      limits := { minimum := 1, maximum := none },
      exportFlag := false }]
  elements := [.passive "e" [0]]
  data := [.passive "d" [1, 2, 3]]
  customSections := [{ name := "c", content := [9] }]

/-- Context whose block stack holds three nested blocks, innermost first,
used by the claim C5 branch-table scenario. -/
def blockStackCBA : InstructionContext :=
  { emptyContext with blockStack := ["c", "b", "a"] }

/-- Context declaring two memories a (index 0) and b (index 1). -/
def memoriesAB : InstructionContext :=
  { emptyContext with memoriesLookup := [("a", 0), ("b", 1)] }

/-- Context declaring one element segment e (index 0) and no tables. -/
def elementsOnlyE : InstructionContext :=
  { emptyContext with elementsLookup := [("e", 0)] }

/-! ## Claim theorems -/

/-- C2: the empty module definition encodes to exactly the 8 preamble bytes
00 61 73 6D 01 00 00 00 and nothing else; every empty non-custom section —
including DataCount when there are zero data segments — is omitted
entirely and contributes no bytes. -/
theorem empty_module_encodes_to_preamble :
    (∀ tbl : String → List Nat, emitModule tbl {} = .ok preamble) ∧
    preamble = [0x00, 0x61, 0x73, 0x6D, 0x01, 0x00, 0x00, 0x00] ∧
    preamble.length = 8 ∧
    emitTypesSection [] = [] ∧
    emitImportsSection [] = [] ∧
    emitFunctionsSection [] = [] ∧
    emitTablesSection [] = [] ∧
    emitMemoriesSection [] = [] ∧
    emitExportsSection [] = [] ∧
    (∀ tbl ctx, emitGlobalsSection tbl ctx [] = .ok []) ∧
    (∀ tbl ctx, emitElementsSection tbl ctx [] = .ok []) ∧
    (∀ tbl ctx, emitCodeSection tbl ctx [] = .ok []) ∧
    (∀ tbl ctx, emitDataSection tbl ctx [] = .ok []) :=
  ⟨fun _ => rfl, rfl, rfl, rfl, rfl, rfl, rfl, rfl, rfl,
   fun _ _ => rfl, fun _ _ => rfl, fun _ _ => rfl, fun _ _ => rfl⟩

/-- C4 (code-bug evaluation): the 32-bit fast path of encode_int is not
minimal at the negative boundary values named by the claim: encode_int(-64)
yields the two bytes C0 7F although the single byte 40 is a well-formed
signed LEB128 encoding of -64, and likewise -8192 gets three bytes instead
of two and -(2^27) five instead of four; decoding the produced bytes does
still yield the input, so only the shortest-encoding part fails. -/
theorem sleb_fast_path_not_minimal_at_boundaries :
    encodeSignedLeb128 (.num (-64)) = [0xC0, 0x7F] ∧
    decodeSleb [0xC0, 0x7F] = -64 ∧
    slebWellFormed [0x40] = true ∧
    decodeSleb [0x40] = -64 ∧
    ([0x40] : List Nat).length < ([0xC0, 0x7F] : List Nat).length ∧
    encodeSignedLeb128 (.num (-8192)) = [0x80, 0xC0, 0x7F] ∧
    slebWellFormed [0x80, 0x40] = true ∧
    decodeSleb [0x80, 0x40] = -8192 ∧
    encodeSignedLeb128 (.num (-134217728)) = [0x80, 0x80, 0x80, 0xC0, 0x7F] ∧
    slebWellFormed [0x80, 0x80, 0x80, 0x40] = true ∧
    decodeSleb [0x80, 0x80, 0x80, 0x40] = -134217728 := by
  decide

/-- C6 (code-bug evaluation): a branch instruction whose target block name
is absent from the block stack does not fail with UnresolvedName — the
source compares the indexOf result against undefined, which a number never
is — but with the InvalidValue error encode_uint raises on the raw -1, an
error kind that does not carry the offending name; `call` with an unknown
function name, by contrast, does fail with UnresolvedName reporting the
name verbatim. -/
theorem branch_unknown_name_wrong_error_kind :
    (∀ tbl : String → List Nat,
      emitInstruction tbl emptyContext (Op.br "missing") =
        .error (.invalidValue (-1)) ∧
      emitInstruction tbl emptyContext (Op.br_if "missing") =
        .error (.invalidValue (-1)) ∧
      emitInstruction tbl emptyContext (Op.br_on_null "missing") =
        .error (.invalidValue (-1)) ∧
      emitInstruction tbl emptyContext (Op.br_on_non_null "missing") =
        .error (.invalidValue (-1)) ∧
      emitInstruction tbl emptyContext (Op.br_on_cast "missing" 0x6e 0x6b) =
        .error (.invalidValue (-1)) ∧
      emitInstruction tbl emptyContext (Op.br_on_cast_fail "missing" 0x6e 0x6b) =
        .error (.invalidValue (-1))) ∧
    (∀ mnemonic name : String,
      EmitError.invalidValue (-1) ≠ .unresolvedName mnemonic name) ∧
    (∀ tbl : String → List Nat,
      emitInstruction tbl emptyContext (Op.call "missing") =
        .error (.unresolvedName "call" "missing")) :=
  ⟨fun _ => ⟨rfl, rfl, rfl, rfl, rfl, rfl⟩,
   fun _ _ h => EmitError.noConfusion h,
   fun _ => rfl⟩

/-- C7 (code-bug evaluation): `memory.copy` resolves both immediates with
the first memory name, so with memories a (index 0) and b (index 1) the
instruction memory.copy(a, b) emits the immediates 0 0 instead of the two
distinct indices 0 1 that resolving each name would give. -/
theorem memory_copy_emits_first_index_twice :
    mapGet memoriesAB.memoriesLookup "a" = some 0 ∧
    mapGet memoriesAB.memoriesLookup "b" = some 1 ∧
    (∀ tbl : String → List Nat,
      emitInstruction tbl memoriesAB (Op.memory.copy "a" "b") =
        .ok (tbl "memory.copy" ++ [0, 0])) ∧
    encodeUintNat 0 ++ encodeUintNat 1 = [0, 1] ∧
    ([0, 0] : List Nat) ≠ [0, 1] :=
  ⟨rfl, rfl, fun _ => rfl, rfl, by decide⟩

/-- C9 (code-bug evaluation): the i32x4, i64x2, f32x4 and f64x2
replace_lane constructors build instruction records carrying the
extract_lane mnemonic of their family, so for every lane index the emitted
bytes are the extract_lane opcode bytes — distinct from the replace_lane
ones — followed by the single lane-index byte. -/
theorem emitImmediatesBytes_simpleUints_natCast (ctx : InstructionContext) (k : Nat) :
    emitImmediatesBytes ctx (.simpleUints [.num (k : Int)]) = .ok (encodeUintNat k) := by
  have h := encodeUnsignedLeb128_natCast k
  simp [emitImmediatesBytes, h]

theorem replace_lane_emits_extract_lane_opcode :
    (∀ k : Int, Op.i32x4.replace_lane k = Op.i32x4.extract_lane k) ∧
    (∀ k : Int, Op.i64x2.replace_lane k = Op.i64x2.extract_lane k) ∧
    (∀ k : Int, Op.f32x4.replace_lane k = Op.f32x4.extract_lane k) ∧
    (∀ k : Int, Op.f64x2.replace_lane k = Op.f64x2.extract_lane k) ∧
    (∀ (tbl : String → List Nat) (k : Nat),
      emitInstruction tbl emptyContext (Op.i32x4.replace_lane (k : Int)) =
        .ok (tbl "i32x4.extract_lane" ++ encodeUintNat k)) ∧
    specOpcodeTable "i32x4.extract_lane" ≠ specOpcodeTable "i32x4.replace_lane" ∧
    emitInstruction specOpcodeTable emptyContext (Op.i32x4.replace_lane 3) =
      .ok [0xFD, 0x1B, 3] ∧
    emitInstruction specOpcodeTable emptyContext (Op.i64x2.replace_lane 1) =
      .ok [0xFD, 0x1D, 1] ∧
    emitInstruction specOpcodeTable emptyContext (Op.f32x4.replace_lane 2) =
      .ok [0xFD, 0x1F, 2] ∧
    emitInstruction specOpcodeTable emptyContext (Op.f64x2.replace_lane 0) =
      .ok [0xFD, 0x21, 0] := by
  refine ⟨fun _ => rfl, fun _ => rfl, fun _ => rfl, fun _ => rfl, ?_,
    by decide, rfl, rfl, rfl, rfl⟩
  intro tbl k
  rw [show Op.i32x4.replace_lane (k : Int) =
    Instruction.simple "i32x4.extract_lane" (.simpleUints [.num (k : Int)]) from rfl]
  simp only [emitInstruction, emitImmediatesBytes_simpleUints_natCast]
  rfl

theorem encodeUintNat_eq_bigInt (n : Nat) : encodeUintNat n = encodeUnsignedBigInt n := by
  unfold encodeUintNat
  by_cases h : n < 2 ^ 31
  · rw [if_pos h, encodeUnsignedInt31_eq_bigInt n h]
  · rw [if_neg h]

/-- C3: for every nonnegative integer, given as a number or as a bigint,
encode_uint succeeds and its output is a well-formed unsigned LEB128 group
sequence that decodes back to the input and is the shortest well-formed
sequence decoding to it; the 31-bit fast path and the arbitrary-precision
path agree, so both produce this minimal encoding. -/
theorem uleb_encode_correct_minimal :
    (∀ v : JsInt, 0 ≤ v.toInt →
      encodeUnsignedLeb128 v = .ok (encodeUnsignedBigInt v.toInt.toNat) ∧
      ulebWellFormed (encodeUnsignedBigInt v.toInt.toNat) = true ∧
      decodeUleb (encodeUnsignedBigInt v.toInt.toNat) = v.toInt.toNat) ∧
    (∀ (n : Nat) (bs : List Nat), ulebWellFormed bs = true → decodeUleb bs = n →
      (encodeUnsignedBigInt n).length ≤ bs.length) ∧
    (∀ n : Nat, n < 2 ^ 31 → encodeUnsignedInt31 n = encodeUnsignedBigInt n) := by
  refine ⟨?_, ?_, encodeUnsignedInt31_eq_bigInt⟩
  · intro v hv
    refine ⟨?_, ulebWellFormed_encodeUnsignedBigInt _, decodeUleb_encodeUnsignedBigInt _⟩
    cases v with
    | num x =>
      simp only [JsInt.toInt] at hv ⊢
      have hx : x = ((x.toNat : Nat) : Int) := by omega
      rw [hx, encodeUnsignedLeb128_natCast, Int.toNat_natCast, encodeUintNat_eq_bigInt]
    | big x =>
      simp only [JsInt.toInt] at hv ⊢
      simp only [encodeUnsignedLeb128]
      rw [if_neg (by omega)]
  · intro n bs hwf hdec
    exact encodeUnsignedBigInt_minimal n bs hwf hdec

/-- Witness for C3: the number input 300, the competing encoding [5] of 5,
and the fast path at 300. -/
theorem uleb_encode_correct_minimal_witness :
    (encodeUnsignedLeb128 (.num 300) = .ok (encodeUnsignedBigInt 300) ∧
      ulebWellFormed (encodeUnsignedBigInt 300) = true ∧
      decodeUleb (encodeUnsignedBigInt 300) = 300) ∧
    (encodeUnsignedBigInt 5).length ≤ ([5] : List Nat).length ∧
    encodeUnsignedInt31 300 = encodeUnsignedBigInt 300 :=
  ⟨uleb_encode_correct_minimal.1 (.num 300) (by decide),
   uleb_encode_correct_minimal.2.1 5 [5] (by decide) (by decide),
   uleb_encode_correct_minimal.2.2 300 (by decide)⟩

/-- C5: the branch depth emitted for br is the index the block stack
assigns to the target name (indexOfName, the source's Array.indexOf, with
the innermost enclosing block first); concretely, nested blocks
outer/middle/inner give br(outer) depth 2 and br(inner) depth 0 — each
entered block pushes its name in front — and br_table with stack [c,b,a],
targets [a,c] and default b emits the array length 2, the depths 2 0 and
the default depth 1. -/
theorem branch_depth_block_stack :
    (∀ (tbl : String → List Nat) (ctx : InstructionContext) (name : String) (i : Nat),
      indexOfName ctx.blockStack name = (i : Int) →
      emitInstruction tbl ctx (Op.br name) = .ok (tbl "br" ++ encodeUintNat i)) ∧
    emitInstruction specOpcodeTable emptyContext
      (Op.block "outer" [Op.block "middle" [Op.block "inner"
        [Op.br "outer", Op.br "inner"]]]) =
      .ok [0x02, 0x40, 0x02, 0x40, 0x02, 0x40, 0x0C, 2, 0x0C, 0] ∧
    indexOfName ["inner", "middle", "outer"] "outer" = 2 ∧
    indexOfName ["inner", "middle", "outer"] "inner" = 0 ∧
    emitInstruction specOpcodeTable blockStackCBA (Op.br_table ["a", "c"] "b") =
      .ok [0x0E, 2, 2, 0, 1] ∧
    indexOfName blockStackCBA.blockStack "a" = 2 ∧
    indexOfName blockStackCBA.blockStack "c" = 0 ∧
    indexOfName blockStackCBA.blockStack "b" = 1 := by
  refine ⟨?_, rfl, rfl, rfl, rfl, rfl, rfl, rfl⟩
  intro tbl ctx name i hi
  rw [show Op.br name = Instruction.simple "br" (.branch "br" name) from rfl]
  simp only [emitInstruction, emitImmediatesBytes, hi, encodeUnsignedLeb128_natCast]
  rfl

/-- Witness for C5: br(a) under the stack [c,b,a] emits depth 2. -/
theorem branch_depth_block_stack_witness :
    emitInstruction specOpcodeTable blockStackCBA (Op.br "a") =
      .ok (specOpcodeTable "br" ++ encodeUintNat 2) :=
  branch_depth_block_stack.1 specOpcodeTable blockStackCBA "a" 2 (by decide)

/-- Module declaring one data segment d and one function whose body drops
it, the concrete instance for claim C8. -/
def moduleWithData : WasmModuleDefinition where
  functions := [
    { name := "f",
      exportFlag := false,
      params := [],
      returns := .many [],
      locals := [],
      instructions := [Op.data.drop "d", Op.end_] }]
  data := [.passive "d" [1, 2, 3]]

/-- C8 (code-bug evaluation): the preparation pass never registers data
segment names (dataLookup stays empty), so data.drop on a declared segment
fails with UnresolvedName instead of emitting its index; and elem.drop
resolves the element name in the tables lookup, so with an element e
(index 0) and no tables it fails with UnresolvedName instead of emitting 0. -/
theorem data_and_elem_drop_unresolvable :
    (buildContext moduleWithData).dataLookup = [] ∧
    moduleWithData.data = [.passive "d" [1, 2, 3]] ∧
    (∀ tbl : String → List Nat,
      emitModule tbl moduleWithData = .error (.unresolvedName "data.drop" "d")) ∧
    mapGet elementsOnlyE.elementsLookup "e" = some 0 ∧
    elementsOnlyE.tablesLookup = [] ∧
    (∀ tbl : String → List Nat,
      emitInstruction tbl elementsOnlyE (Op.elem.drop "e") =
        .error (.unresolvedName "elem.drop" "e")) :=
  ⟨rfl, rfl, fun _ => rfl, rfl, rfl, fun _ => rfl⟩

/-- C10: the derived exports hold exactly one entry per exported function,
table, global and memory, grouped in that order (functions first, then
tables, then globals, then memories), each under its own name, kind byte
(function 0, table 1, global 3, memory 2) and declaration-order index; the
exports section encodes the entry count followed by each entry's
length-prefixed name, kind byte and unsigned LEB128 index. -/
theorem exports_grouped_by_kind :
    (∀ m : WasmModuleDefinition,
      deriveExports m =
        (m.functions.enum.filterMap fun p =>
          if p.2.exportFlag then some ⟨p.2.name, 0, p.1⟩ else none) ++
        (m.tables.enum.filterMap fun p =>
          if p.2.exportFlag then some ⟨p.2.name, 1, p.1⟩ else none) ++
        (m.globals.enum.filterMap fun p =>
          if p.2.exportFlag then some ⟨p.2.name, 3, p.1⟩ else none) ++
        (m.memories.enum.filterMap fun p =>
          if p.2.exportFlag then some ⟨p.2.name, 2, p.1⟩ else none)) ∧
    (∀ entries : List ExportEntry, entries ≠ [] →
      emitExportsSection entries = sectionFrame SectionId.Exports
        (encodeUintNat entries.length ++ (entries.map emitExportEntryBytes).flatten)) ∧
    (∀ entry : ExportEntry,
      emitExportEntryBytes entry =
        emitStringBytes entry.name ++ entry.kind :: encodeUintNat entry.index) ∧
    ExportKind.function = 0 ∧ ExportKind.table = 1 ∧
    ExportKind.global = 3 ∧ ExportKind.memory = 2 := by
  refine ⟨fun m => rfl, ?_, fun e => rfl, rfl, rfl, rfl, rfl⟩
  intro entries h
  unfold emitExportsSection
  rw [if_neg (by simpa [List.length_eq_zero] using h)]
  rfl

/-- Witness for C10: the section bytes of a one-entry export list. -/
theorem exports_grouped_by_kind_witness :
    emitExportsSection [⟨"f", 0, 0⟩] = sectionFrame SectionId.Exports
      (encodeUintNat 1 ++
        (([⟨"f", 0, 0⟩] : List ExportEntry).map emitExportEntryBytes).flatten) :=
  exports_grouped_by_kind.2.1 [⟨"f", 0, 0⟩] (by decide)

/-- C1: whenever a module definition with entries in every section kind
emits successfully, the output bytes are the preamble followed by the
section frames with id bytes in exactly the order
1, 2, 3, 4, 5, 6, 7, 8, 9, 12, 10, 11, followed by one custom section
frame (id 0) per user-supplied custom section, written last. -/
theorem sections_in_fixed_order
    (tbl : String → List Nat) (m : WasmModuleDefinition) (out : List Nat)
    (hfunctions : m.functions ≠ []) (himports : m.imports ≠ [])
    (htables : m.tables ≠ []) (hmemories : m.memories ≠ [])
    (hglobals : m.globals ≠ []) (hexports : deriveExports m ≠ [])
    (hstart : m.start.isSome = true) (helements : m.elements ≠ [])
    (hdata : m.data ≠ []) (hok : emitModule tbl m = .ok out) :
    ∃ b1 b2 b3 b4 b5 b6 b7 b8 b9 b12 b10 b11,
      out = preamble ++
        sectionFrame SectionId.Types b1 ++ sectionFrame SectionId.Imports b2 ++
        sectionFrame SectionId.Functions b3 ++ sectionFrame SectionId.Tables b4 ++
        sectionFrame SectionId.Memory b5 ++ sectionFrame SectionId.Globals b6 ++
        sectionFrame SectionId.Exports b7 ++ sectionFrame SectionId.Start b8 ++
        sectionFrame SectionId.Elements b9 ++ sectionFrame SectionId.DataCount b12 ++
        sectionFrame SectionId.Code b10 ++ sectionFrame SectionId.Data b11 ++
        (m.customSections.map emitCustomSectionBytes).flatten ∧
      (∀ cs : CustomSection, emitCustomSectionBytes cs =
        sectionFrame SectionId.Custom (emitStringBytes cs.name ++ cs.content)) := by
  simp only [emitModule] at hok
  obtain ⟨globalsBytes, hglobalsOk, hok⟩ := except_bind_eq_ok hok
  obtain ⟨elementsBytes, helementsOk, hok⟩ := except_bind_eq_ok hok
  obtain ⟨codeBytes, hcodeOk, hok⟩ := except_bind_eq_ok hok
  obtain ⟨dataBytes, hdataOk, hok⟩ := except_bind_eq_ok hok
  have hout := Except.ok.inj hok
  obtain ⟨b1, hb1⟩ := emitTypesSection_shape
    (m.functions.map functionSignatureOf ++ m.customTypes) (by
      intro hc
      rcases List.append_eq_nil.mp hc with ⟨h1, -⟩
      exact hfunctions (List.map_eq_nil_iff.mp h1))
  obtain ⟨b2, hb2⟩ := emitImportsSection_shape m.imports himports
  obtain ⟨b3, hb3⟩ := emitFunctionsSection_shape m.functions hfunctions
  obtain ⟨b4, hb4⟩ := emitTablesSection_shape m.tables htables
  obtain ⟨b5, hb5⟩ := emitMemoriesSection_shape m.memories hmemories
  obtain ⟨b6, hb6⟩ :=
    emitGlobalsSection_shape tbl (buildContext m) m.globals globalsBytes hglobals hglobalsOk
  obtain ⟨b7, hb7⟩ := emitExportsSection_shape (deriveExports m) hexports
  obtain ⟨st, hst⟩ := Option.isSome_iff_exists.mp hstart
  obtain ⟨b9, hb9⟩ := emitElementsSection_shape tbl (buildContext m) m.elements
    elementsBytes helements helementsOk
  obtain ⟨b10, hb10⟩ := emitCodeSection_shape tbl (buildContext m) m.functions
    codeBytes hfunctions hcodeOk
  obtain ⟨b11, hb11⟩ := emitDataSection_shape tbl (buildContext m) m.data
    dataBytes hdata hdataOk
  have hdatalen : m.data.length > 0 := by
    cases hd : m.data with
    | nil => exact absurd hd hdata
    | cons a l => simp [hd]
  refine ⟨b1, b2, b3, b4, b5, b6, b7, encodeUintNat st.functionIndex, b9,
    encodeUintNat m.data.length, b10, b11, ?_, fun cs => rfl⟩
  rw [hb1, hb2, hb3, hb4, hb5, hb7] at hout
  simp only [hst] at hout
  rw [if_pos hdatalen] at hout
  rw [hb6, hb9, hb10, hb11] at hout
  exact hout.symm

/-- Witness for C1: the concrete module with every section kind populated
emits successfully and in the stated shape. -/
theorem sections_in_fixed_order_witness :
    ∃ out, emitModule specOpcodeTable concreteModule = .ok out ∧
      ∃ b1 b2 b3 b4 b5 b6 b7 b8 b9 b12 b10 b11,
        out = preamble ++
          sectionFrame SectionId.Types b1 ++ sectionFrame SectionId.Imports b2 ++
          sectionFrame SectionId.Functions b3 ++ sectionFrame SectionId.Tables b4 ++
          sectionFrame SectionId.Memory b5 ++ sectionFrame SectionId.Globals b6 ++
          sectionFrame SectionId.Exports b7 ++ sectionFrame SectionId.Start b8 ++
          sectionFrame SectionId.Elements b9 ++ sectionFrame SectionId.DataCount b12 ++
          sectionFrame SectionId.Code b10 ++ sectionFrame SectionId.Data b11 ++
          (concreteModule.customSections.map emitCustomSectionBytes).flatten ∧
        (∀ cs : CustomSection, emitCustomSectionBytes cs =
          sectionFrame SectionId.Custom (emitStringBytes cs.name ++ cs.content)) := by
  have hok : emitModule specOpcodeTable concreteModule =
      .ok (exceptGetOk (emitModule specOpcodeTable concreteModule)) := rfl
  exact ⟨_, hok, sections_in_fixed_order specOpcodeTable concreteModule _
    (List.cons_ne_nil _ _) (List.cons_ne_nil _ _) (List.cons_ne_nil _ _)
    (List.cons_ne_nil _ _) (List.cons_ne_nil _ _) (by decide) rfl
    (List.cons_ne_nil _ _) (List.cons_ne_nil _ _) hok⟩

end WasmComposer
